import Mathlib

/-
Verification of the recommendation-cache core of
`td/telegram/ChannelRecommendationManager.cpp`.

The C++ manager is an actor: all of its handlers run on one serialized
execution context.  We embed it shallowly: the manager's member maps become
association lists in a `ManagerState`, each handler becomes a pure function
`ManagerState → ManagerState × List Event`, where the emitted `Event` list
records every promise resolution, database access and remote query the
handler performs, in program order.  External collaborators (DialogManager,
ContactsManager, OptionManager, Time, the close flag) are read-only during a
single handler run and are passed as an `Env` record of oracles.

Machine integers: `total_count_` is an `int32` in the source; we model it as
`Int`.  The two `static_cast<size_t>` comparisons against list sizes in the
source compare the mathematical values whenever the count is a genuine
`int32` and the list a genuine in-memory vector, which is what the embedding
states directly.  Time (`double` in the source) only ever participates in
order comparisons, so it is modelled as `Int`.
-/

namespace ChannelRec

/-- Dialog identifiers.  `DialogId` in td carries its type in the value;
the manager only distinguishes channel dialogs from everything else. -/
inductive DialogId where
  | channel (id : Nat)
  | user (id : Nat)
  | chat (id : Nat)
  | secretChat (id : Nat)
deriving DecidableEq

/-- `dialog_id.get_type() == DialogType::Channel`. -/
def DialogId.isChannel : DialogId → Bool
  | .channel _ => true
  | _ => false

/-- `dialog_id.get_channel_id()`; only meaningful on channel dialogs,
which is the only place the source calls it. -/
def DialogId.channelId : DialogId → Nat
  | .channel c => c
  | .user u => u
  | .chat c => c
  | .secretChat s => s

/-- The serializable cached value `RecommendedDialogs`:
recommended dialog identifiers, the authoritative total count and the
absolute time after which the record is stale. -/
structure RecommendedDialogs where
  dialog_ids : List DialogId
  total_count : Int
  next_reload_time : Int
deriving DecidableEq

/-- One token of the tagged binary form produced by the log-event storer.
The td storer writes a flags word, then each present field in order; we
keep the fields as atomic tokens since the claims are about which fields
are present and about the round trip, not about byte layout. -/
inductive SerTok where
  | flagsTok (f : Nat)
  | dialogsTok (l : List DialogId)
  | timeTok (t : Int)
  | countTok (c : Int)
deriving DecidableEq

/-- `RecommendedDialogs::store`: flags word first
(bit 0 = has_dialog_ids, bit 1 = has_total_count), then the dialog list if
non-empty, then the reload time, then the total count if it differs from
the list length. -/
def RecommendedDialogs.store (r : RecommendedDialogs) : List SerTok :=
  let has_dialog_ids : Bool := !r.dialog_ids.isEmpty
  let has_total_count : Bool := decide (r.total_count ≠ (r.dialog_ids.length : Int))
  SerTok.flagsTok ((cond has_dialog_ids 1 0) + 2 * (cond has_total_count 1 0)) ::
    ((if has_dialog_ids then [SerTok.dialogsTok r.dialog_ids] else []) ++
      (SerTok.timeTok r.next_reload_time ::
        (if has_total_count then [SerTok.countTok r.total_count] else [])))

/-- Tail of `RecommendedDialogs::parse` after the dialog list and the time
have been read: the count field is read iff bit 1 was set, otherwise the
count is reconstructed as the list length; `log_event_parse` also demands
that the whole value is consumed. -/
def RecommendedDialogs.parseTail (has_total_count : Bool) (ids : List DialogId) (t : Int)
    (rest : List SerTok) : Option RecommendedDialogs :=
  match has_total_count, rest with
  | true, [SerTok.countTok tc] => some ⟨ids, tc, t⟩
  | false, [] => some ⟨ids, (ids.length : Int), t⟩
  | _, _ => none

/-- `RecommendedDialogs::parse`: reads the flags word (END_PARSE_FLAGS
rejects unknown bits, hence the `4 ≤ f` failure), then the fields whose
bits are set, in storage order.  Any shape mismatch is a parse error. -/
def RecommendedDialogs.parse (toks : List SerTok) : Option RecommendedDialogs :=
  match toks with
  | SerTok.flagsTok f :: rest =>
      if 4 ≤ f then none
      else
        let has_dialog_ids : Bool := decide (f % 2 = 1)
        let has_total_count : Bool := decide (f / 2 % 2 = 1)
        match has_dialog_ids, rest with
        | true, SerTok.dialogsTok ids :: SerTok.timeTok t :: rest2 =>
            RecommendedDialogs.parseTail has_total_count ids t rest2
        | false, SerTok.timeTok t :: rest2 =>
            RecommendedDialogs.parseTail has_total_count [] t rest2
        | _, _ => none
  | _ => none

abbrev ChannelId := Nat
abbrev PromiseId := Nat

/-- A td `Status` error: numeric code plus message. -/
structure Err where
  code : Int
  msg : String
deriving DecidableEq

/-- Read-only oracles for the external collaborators consulted during one
handler run: DialogManager, ContactsManager, OptionManager, the global
database/close flags and the wall clock. -/
structure Env where
  have_dialog : DialogId → Bool
  is_broadcast_channel : ChannelId → Bool
  have_input_channel : ChannelId → Bool
  is_member : ChannelId → Bool
  have_input_peer_read : ChannelId → Bool
  is_premium : Bool
  use_message_database : Bool
  resolve_force_ok : List DialogId → Bool
  close_flag : Bool
  close_status : Err
  now : Int

/-- `is_suitable_recommended_channel(ChannelId)`: the caller is not a
member of the channel and still has read access to it. -/
def is_suitable_recommended_channel_id (env : Env) (c : ChannelId) : Bool :=
  !env.is_member c && env.have_input_peer_read c

/-- `is_suitable_recommended_channel(DialogId)`: the dialog must be a
channel dialog, then the channel-level check applies. -/
def is_suitable_recommended_dialog (env : Env) (d : DialogId) : Bool :=
  match d with
  | .channel c => is_suitable_recommended_channel_id env c
  | _ => false

/-- `are_suitable_recommended_dialogs`: every recommended dialog is still
individually suitable, and a partial record (`dialog_ids.size() !=
total_count_`) is rejected when the account has the premium option. -/
def are_suitable_recommended_dialogs (env : Env) (r : RecommendedDialogs) : Bool :=
  if r.dialog_ids.all (is_suitable_recommended_dialog env) then
    let have_all : Bool := decide ((r.dialog_ids.length : Int) = r.total_count)
    if !have_all && env.is_premium then false else true
  else
    false

/-- `get_channel_recommendations_database_key`. -/
def get_channel_recommendations_database_key (c : ChannelId) : String :=
  "channel_recommendations" ++ toString c

/-- An observable effect of one handler run: a promise resolution, a
database access (`get`/`set`/`erase` of the per-channel key) or the
dispatch of one `GetChannelRecommendationsQuery`.  Database events carry
the channel the key is derived from. -/
inductive Event where
  | chatsValue (p : PromiseId) (total : Int) (ds : List DialogId)
  | chatsError (p : PromiseId) (e : Err)
  | countValue (p : PromiseId) (c : Int)
  | countError (p : PromiseId) (e : Err)
  | dbGet (c : ChannelId)
  | dbSet (c : ChannelId) (value : List SerTok)
  | dbErase (c : ChannelId)
  | remoteFetch (c : ChannelId)
deriving DecidableEq

/-- Association-list lookup, standing in for `FlatHashMap::find`. -/
def lookA {α : Type} (c : ChannelId) : List (ChannelId × α) → Option α
  | [] => none
  | (k, v) :: rest => if k = c then some v else lookA c rest

/-- Association-list insert-or-replace, standing in for `map[key] = v`. -/
def setA {α : Type} (c : ChannelId) (v : α) : List (ChannelId × α) → List (ChannelId × α)
  | [] => [(c, v)]
  | (k, w) :: rest => if k = c then (c, v) :: rest else (k, w) :: setA c v rest

/-- Association-list erase, standing in for `map.erase(key)`. -/
def eraseA {α : Type} (c : ChannelId) : List (ChannelId × α) → List (ChannelId × α)
  | [] => []
  | (k, w) :: rest => if k = c then eraseA c rest else (k, w) :: eraseA c rest

/-- The manager's mutable member state: the record cache
`channel_recommended_dialogs_`, the list-waiter queues
`get_channel_recommendations_queries_` (a null chats promise is `none`)
and the two count-waiter partitions
`get_channel_recommendation_count_queries_[return_local]`. -/
structure ManagerState where
  channel_recommended_dialogs : List (ChannelId × RecommendedDialogs)
  list_queries : List (ChannelId × List (Option PromiseId))
  count_queries0 : List (ChannelId × List PromiseId)
  count_queries1 : List (ChannelId × List PromiseId)
deriving DecidableEq

def initialState : ManagerState := ⟨[], [], [], []⟩

/-- The list-waiter queue of channel `c` (empty if the map has no entry). -/
def listQ (s : ManagerState) (c : ChannelId) : List (Option PromiseId) :=
  (lookA c s.list_queries).getD []

/-- The `return_local = false` count-waiter queue of channel `c`. -/
def countQ0 (s : ManagerState) (c : ChannelId) : List PromiseId :=
  (lookA c s.count_queries0).getD []

/-- The `return_local = true` count-waiter queue of channel `c`. -/
def countQ1 (s : ManagerState) (c : ChannelId) : List PromiseId :=
  (lookA c s.count_queries1).getD []

/-- `get_channel_recommendation_count_queries_[return_local][channel_id]
.push_back(promise)`. -/
def pushCount (rl : Bool) (c : ChannelId) (p : PromiseId) (s : ManagerState) : ManagerState :=
  if rl then
    { s with count_queries1 := setA c (countQ1 s c ++ [p]) s.count_queries1 }
  else
    { s with count_queries0 := setA c (countQ0 s c ++ [p]) s.count_queries0 }

/-- Resolve or fail an optional promise: a null promise produces no event. -/
def optEv (p : Option PromiseId) (f : PromiseId → Event) : List Event :=
  match p with
  | some q => [f q]
  | none => []

/-- `reload_channel_recommendations`: pops every `return_local` count
waiter and answers it with the sentinel `-1`, then sends one
`GetChannelRecommendationsQuery`. -/
def reload_channel_recommendations (s : ManagerState) (c : ChannelId) :
    ManagerState × List Event :=
  ({ s with count_queries1 := eraseA c s.count_queries1 },
    (countQ1 s c).map (fun p => Event.countValue p (-1)) ++ [Event.remoteFetch c])

/-- `load_channel_recommendations`: queue the count promise (if any) in its
partition, unconditionally queue the chats promise (null included); if that
made the list queue have size 1, start the episode — a database read when
the message database is used and `use_database` is set, otherwise a fresh
reload. -/
def load_channel_recommendations (env : Env) (s : ManagerState) (c : ChannelId)
    (use_database return_local : Bool) (chats_promise count_promise : Option PromiseId) :
    ManagerState × List Event :=
  let s1 := match count_promise with
    | some p => pushCount return_local c p s
    | none => s
  let q2 := listQ s1 c ++ [chats_promise]
  let s2 := { s1 with list_queries := setA c q2 s1.list_queries }
  if q2.length = 1 then
    if env.use_message_database && use_database then
      (s2, [Event.dbGet c])
    else
      reload_channel_recommendations s2 c
  else
    (s2, [])

/-- `fail_load_channel_recommendations_queries`: pop both count partitions
and the list queue for the channel and fail every waiter with (a clone of)
the same error; failing a null chats promise is a no-op. -/
def fail_load_channel_recommendations_queries (s : ManagerState) (c : ChannelId) (e : Err) :
    ManagerState × List Event :=
  ({ s with count_queries0 := eraseA c s.count_queries0,
            count_queries1 := eraseA c s.count_queries1,
            list_queries := eraseA c s.list_queries },
    (countQ0 s c).map (fun p => Event.countError p e) ++
      (countQ1 s c).map (fun p => Event.countError p e) ++
      (listQ s c).filterMap (fun op => op.map (fun p => Event.chatsError p e)))

/-- `finish_load_channel_recommendations_queries`: pop both count
partitions and the list queue and resolve every waiter from the one
result; null chats promises are skipped. -/
def finish_load_channel_recommendations_queries (s : ManagerState) (c : ChannelId)
    (total_count : Int) (dialog_ids : List DialogId) : ManagerState × List Event :=
  ({ s with count_queries0 := eraseA c s.count_queries0,
            count_queries1 := eraseA c s.count_queries1,
            list_queries := eraseA c s.list_queries },
    (countQ0 s c).map (fun p => Event.countValue p total_count) ++
      (countQ1 s c).map (fun p => Event.countValue p total_count) ++
      (listQ s c).filterMap (fun op => op.map (fun p => Event.chatsValue p total_count dialog_ids)))

/-- `get_channel_recommendations`: boundary rejections, then the
memory-cache lookup with revalidation; a suitable record answers the caller
immediately and either returns (fresh) or starts a background refresh with
null waiters (stale); an unsuitable record is invalidated in memory and in
the database; in all fall-through cases the episode is delegated to
`load_channel_recommendations`, with `use_database` false whenever a cached
entry was found. -/
def get_channel_recommendations (env : Env) (s : ManagerState) (dialog_id : DialogId)
    (return_local : Bool) (chats_promise count_promise : Option PromiseId) :
    ManagerState × List Event :=
  if !env.have_dialog dialog_id then
    (s, optEv chats_promise (fun p => Event.chatsError p ⟨400, "Chat not found"⟩) ++
        optEv count_promise (fun p => Event.countError p ⟨400, "Chat not found"⟩))
  else if !dialog_id.isChannel then
    (s, optEv chats_promise (fun p => Event.chatsValue p 0 []) ++
        optEv count_promise (fun p => Event.countValue p 0))
  else
    let c := dialog_id.channelId
    if !env.is_broadcast_channel c || !env.have_input_channel c then
      (s, optEv chats_promise (fun p => Event.chatsValue p 0 []) ++
          optEv count_promise (fun p => Event.countValue p 0))
    else
      match lookA c s.channel_recommended_dialogs with
      | some r =>
          if are_suitable_recommended_dialogs env r then
            let evs := optEv chats_promise (fun p => Event.chatsValue p r.total_count r.dialog_ids) ++
                       optEv count_promise (fun p => Event.countValue p r.total_count)
            if env.now < r.next_reload_time then
              (s, evs)
            else
              let r2 := load_channel_recommendations env s c false return_local none none
              (r2.1, evs ++ r2.2)
          else
            let s1 := { s with channel_recommended_dialogs := eraseA c s.channel_recommended_dialogs }
            let ev1 := if env.use_message_database then [Event.dbErase c] else []
            let r2 := load_channel_recommendations env s1 c false return_local chats_promise count_promise
            (r2.1, ev1 ++ r2.2)
      | none =>
          load_channel_recommendations env s c true return_local chats_promise count_promise

/-- `CHANNEL_RECOMMENDATIONS_CACHE_TIME` (declared in the header; its exact
value is irrelevant to every claim). -/
def CHANNEL_RECOMMENDATIONS_CACHE_TIME : Int := 86400

/-- The filtering loop of `on_get_channel_recommendations`: keep each
suitable received channel, decrement the total count for each rejected
one. -/
def reconcile_loop (env : Env) : List ChannelId → Int → List DialogId → Int × List DialogId
  | [], tc, ds => (tc, ds)
  | cid :: rest, tc, ds =>
      if is_suitable_recommended_channel_id env cid then
        reconcile_loop env rest tc (ds ++ [DialogId.channel cid])
      else
        reconcile_loop env rest (tc - 1) ds

/-- `on_get_channel_recommendations`: `ignore_result_if_closing` turns a
success arriving during shutdown into an abort error; an error fails every
queued waiter; a success clamps the reported total up to the number of
received channels, filters them through the suitability check (decrementing
the total per rejection), stores the new record in memory and — when the
message database is used — in the database, then resolves every queued
waiter from it. -/
def on_get_channel_recommendations (env : Env) (s : ManagerState) (c : ChannelId)
    (r_chats : Except Err (Int × List ChannelId)) : ManagerState × List Event :=
  let r := if env.close_flag then
             match r_chats with
             | .ok _ => Except.error ⟨500, "Request aborted"⟩
             | .error e => Except.error e
           else r_chats
  match r with
  | .error e => fail_load_channel_recommendations_queries s c e
  | .ok (tc0, channel_ids) =>
      let tc1 := if tc0 < (channel_ids.length : Int) then (channel_ids.length : Int) else tc0
      let res := reconcile_loop env channel_ids tc1 []
      let rec2 : RecommendedDialogs := ⟨res.2, res.1, env.now + CHANNEL_RECOMMENDATIONS_CACHE_TIME⟩
      let s1 := { s with channel_recommended_dialogs := setA c rec2 s.channel_recommended_dialogs }
      let evSet := if env.use_message_database then [Event.dbSet c rec2.store] else []
      let r2 := finish_load_channel_recommendations_queries s1 c res.1 res.2
      (r2.1, evSet ++ r2.2)

/-- `on_load_channel_recommendations_from_database`: during shutdown, fail
all waiters with the close status; an empty value is a miss and goes to the
fresh reload; a value that does not parse, or parses to a record whose
dialogs cannot be resolved or are no longer suitable, self-heals (memory
entry and database entry erased) and goes to the fresh reload; an accepted
record resolves every queued waiter and, if already stale, starts a null-
waiter background refresh. -/
def on_load_channel_recommendations_from_database (env : Env) (s : ManagerState)
    (c : ChannelId) (value : List SerTok) : ManagerState × List Event :=
  if env.close_flag then
    fail_load_channel_recommendations_queries s c env.close_status
  else if value.isEmpty then
    reload_channel_recommendations s c
  else
    match RecommendedDialogs.parse value with
    | none =>
        let s1 := { s with channel_recommended_dialogs := eraseA c s.channel_recommended_dialogs }
        let r2 := reload_channel_recommendations s1 c
        (r2.1, Event.dbErase c :: r2.2)
    | some r =>
        if !env.resolve_force_ok r.dialog_ids || !are_suitable_recommended_dialogs env r then
          let s1 := { s with channel_recommended_dialogs := eraseA c s.channel_recommended_dialogs }
          let r2 := reload_channel_recommendations s1 c
          (r2.1, Event.dbErase c :: r2.2)
        else
          let s1 := { s with channel_recommended_dialogs := setA c r s.channel_recommended_dialogs }
          let r2 := finish_load_channel_recommendations_queries s1 c r.total_count r.dialog_ids
          if r.next_reload_time ≤ env.now then
            let r3 := load_channel_recommendations env r2.1 c false false none none
            (r3.1, r2.2 ++ r3.2)
          else
            r2

/-! ### Association-list lemmas -/

theorem lookA_setA_self {α : Type} (c : ChannelId) (v : α) (m : List (ChannelId × α)) :
    lookA c (setA c v m) = some v := by
  induction m with
  | nil => simp [setA, lookA]
  | cons kv rest ih =>
      obtain ⟨k, w⟩ := kv
      by_cases h : k = c <;> simp [setA, lookA, h, ih]

theorem lookA_setA_ne {α : Type} {c c' : ChannelId} (h : c' ≠ c) (v : α)
    (m : List (ChannelId × α)) : lookA c' (setA c v m) = lookA c' m := by
  have h2 : ¬(c = c') := fun hh => h hh.symm
  induction m with
  | nil => simp [setA, lookA, h2]
  | cons kv rest ih =>
      obtain ⟨k, w⟩ := kv
      by_cases hk : k = c
      · subst hk
        simp [setA, lookA, h2]
      · simp [setA, lookA, hk, ih]

theorem lookA_eraseA_self {α : Type} (c : ChannelId) (m : List (ChannelId × α)) :
    lookA c (eraseA c m) = none := by
  induction m with
  | nil => simp [eraseA, lookA]
  | cons kv rest ih =>
      obtain ⟨k, w⟩ := kv
      by_cases h : k = c <;> simp [eraseA, lookA, h, ih]

theorem lookA_eraseA_ne {α : Type} {c c' : ChannelId} (h : c' ≠ c)
    (m : List (ChannelId × α)) : lookA c' (eraseA c m) = lookA c' m := by
  have h2 : ¬(c = c') := fun hh => h hh.symm
  induction m with
  | nil => simp [eraseA, lookA]
  | cons kv rest ih =>
      obtain ⟨k, w⟩ := kv
      by_cases hk : k = c
      · subst hk
        simp [eraseA, lookA, h2, ih]
      · simp [eraseA, lookA, hk, ih]

/-! ### Suitability -/

theorem is_suitable_dialog_iff (env : Env) (d : DialogId) :
    is_suitable_recommended_dialog env d = true ↔
      ∃ cid, d = DialogId.channel cid ∧ env.is_member cid = false ∧
        env.have_input_peer_read cid = true := by
  cases d <;> simp [is_suitable_recommended_dialog, is_suitable_recommended_channel_id]

/-- C8: a cached record passes validation iff every entity in its list is a
channel the caller is not a member of and retains read access to, and
either the record is complete (list length equals total count) or the
premium option is not set. -/
theorem c8_validation_iff (env : Env) (r : RecommendedDialogs) :
    are_suitable_recommended_dialogs env r = true ↔
      ((∀ d ∈ r.dialog_ids, ∃ cid, d = DialogId.channel cid ∧
          env.is_member cid = false ∧ env.have_input_peer_read cid = true) ∧
        ((r.dialog_ids.length : Int) = r.total_count ∨ env.is_premium = false)) := by
  have hall : (∀ d ∈ r.dialog_ids, is_suitable_recommended_dialog env d = true) ↔
      (∀ d ∈ r.dialog_ids, ∃ cid, d = DialogId.channel cid ∧ env.is_member cid = false ∧
        env.have_input_peer_read cid = true) := by
    constructor <;> intro hh d hd
    · exact (is_suitable_dialog_iff env d).mp (hh d hd)
    · exact (is_suitable_dialog_iff env d).mpr (hh d hd)
  have key : are_suitable_recommended_dialogs env r =
      (r.dialog_ids.all (is_suitable_recommended_dialog env) &&
        (decide ((r.dialog_ids.length : Int) = r.total_count) || !env.is_premium)) := by
    unfold are_suitable_recommended_dialogs
    cases hA : r.dialog_ids.all (is_suitable_recommended_dialog env) <;>
      cases hP : env.is_premium <;>
        cases hC : decide ((r.dialog_ids.length : Int) = r.total_count) <;> simp [hA, hP, hC]
  rw [key]
  simp only [Bool.and_eq_true, Bool.or_eq_true, decide_eq_true_eq, Bool.not_eq_true',
    List.all_eq_true]
  exact and_congr hall Iff.rfl

/-! ### Serialization round trip -/

/-- C6: `store` omits the dialog list exactly when it is empty and omits
the total count exactly when it equals the list length, and `parse`
reconstructs the original record from the stored tokens. -/
theorem c6_store_parse_round_trip (r : RecommendedDialogs) :
    ((∃ l, SerTok.dialogsTok l ∈ r.store) ↔ r.dialog_ids ≠ []) ∧
    ((∃ tc, SerTok.countTok tc ∈ r.store) ↔ r.total_count ≠ (r.dialog_ids.length : Int)) ∧
    RecommendedDialogs.parse r.store = some r := by
  obtain ⟨ids, tc, t⟩ := r
  by_cases h1 : ids = []
  · subst h1
    by_cases h2 : tc = (0 : Int)
    · subst h2
      simp [RecommendedDialogs.store, RecommendedDialogs.parse, RecommendedDialogs.parseTail]
    · simp [RecommendedDialogs.store, RecommendedDialogs.parse, RecommendedDialogs.parseTail, h2]
  · have hne : ids.isEmpty = false := by
      cases ids with
      | nil => exact absurd rfl h1
      | cons a l => rfl
    by_cases h2 : tc = (ids.length : Int)
    · subst h2
      simp [RecommendedDialogs.store, RecommendedDialogs.parse, RecommendedDialogs.parseTail,
        h1, hne]
    · simp [RecommendedDialogs.store, RecommendedDialogs.parse, RecommendedDialogs.parseTail,
        h1, h2, hne]

/-! ### C7: sentinel resolution at reload time -/

/-- C7: starting a fresh reload immediately resolves every queued
`return_local` count waiter (partition index 1) with the sentinel `-1` and
empties that partition, while the other partition and the list queue stay
queued untouched; the reload then dispatches the remote query. -/
theorem c7_reload_sentinel (s : ManagerState) (c : ChannelId) :
    (∀ p ∈ countQ1 s c, Event.countValue p (-1) ∈ (reload_channel_recommendations s c).2) ∧
    countQ1 (reload_channel_recommendations s c).1 c = [] ∧
    countQ0 (reload_channel_recommendations s c).1 c = countQ0 s c ∧
    listQ (reload_channel_recommendations s c).1 c = listQ s c ∧
    (reload_channel_recommendations s c).2 =
      (countQ1 s c).map (fun p => Event.countValue p (-1)) ++ [Event.remoteFetch c] := by
  refine ⟨?_, ?_, rfl, rfl, rfl⟩
  · intro p hp
    exact List.mem_append_left _ (List.mem_map.mpr ⟨p, hp, rfl⟩)
  · simp [reload_channel_recommendations, countQ1, lookA_eraseA_self]

theorem c7_witness :
    Event.countValue 7 (-1) ∈
      (reload_channel_recommendations ⟨[], [], [], [(5, [7])]⟩ 5).2 ∧
    countQ1 (reload_channel_recommendations ⟨[], [], [], [(5, [7])]⟩ 5).1 5 = [] :=
  ⟨(c7_reload_sentinel ⟨[], [], [], [(5, [7])]⟩ 5).1 7 (by decide),
    (c7_reload_sentinel ⟨[], [], [], [(5, [7])]⟩ 5).2.1⟩

/-! ### C2: remote-result reconciliation invariant -/

theorem filter_length_split {α : Type} (p : α → Bool) (l : List α) :
    (l.filter p).length + (l.filter (fun x => !p x)).length = l.length := by
  induction l with
  | nil => simp
  | cons x xs ih =>
      cases hx : p x <;> simp [List.filter_cons, hx] <;> omega

theorem reconcile_loop_spec (env : Env) (l : List ChannelId) :
    ∀ (tc : Int) (ds : List DialogId),
      (reconcile_loop env l tc ds).1 =
        tc - ((l.filter (fun x => !is_suitable_recommended_channel_id env x)).length : Int) ∧
      (reconcile_loop env l tc ds).2 =
        ds ++ (l.filter (is_suitable_recommended_channel_id env)).map DialogId.channel := by
  induction l with
  | nil =>
      intro tc ds
      simp [reconcile_loop]
  | cons x xs ih =>
      intro tc ds
      cases hx : is_suitable_recommended_channel_id env x with
      | true =>
          have h := ih tc (ds ++ [DialogId.channel x])
          simp [reconcile_loop, hx, List.filter_cons, h.1, h.2]
      | false =>
          have h := ih (tc - 1) ds
          refine ⟨?_, ?_⟩
          · have : reconcile_loop env (x :: xs) tc ds = reconcile_loop env xs (tc - 1) ds := by
              simp [reconcile_loop, hx]
            rw [this, h.1]
            simp [List.filter_cons, hx]
            omega
          · have : reconcile_loop env (x :: xs) tc ds = reconcile_loop env xs (tc - 1) ds := by
              simp [reconcile_loop, hx]
            rw [this, h.2]
            simp [List.filter_cons, hx]

/-- C2: on a successful remote fetch the total is first clamped up to the
number of received channels, then decremented once per unsuitable channel;
the stored record keeps only the suitable channels and always satisfies
`dialog_ids.length ≤ total_count` and `0 ≤ total_count`; the same record
is written to the database when the message database is used. -/
theorem c2_reconciliation_invariant (env : Env) (s : ManagerState) (c : ChannelId)
    (tc0 : Int) (channel_ids : List ChannelId) (hclose : env.close_flag = false) :
    ∃ r, lookA c (on_get_channel_recommendations env s c
          (.ok (tc0, channel_ids))).1.channel_recommended_dialogs = some r ∧
      r.dialog_ids =
        (channel_ids.filter (is_suitable_recommended_channel_id env)).map DialogId.channel ∧
      r.total_count =
        (if tc0 < (channel_ids.length : Int) then (channel_ids.length : Int) else tc0) -
          ((channel_ids.filter (fun x => !is_suitable_recommended_channel_id env x)).length : Int) ∧
      (r.dialog_ids.length : Int) ≤ r.total_count ∧ 0 ≤ r.total_count ∧
      (env.use_message_database = true →
        Event.dbSet c r.store ∈ (on_get_channel_recommendations env s c
          (.ok (tc0, channel_ids))).2) := by
  have hrl := reconcile_loop_spec env channel_ids
    (if tc0 < (channel_ids.length : Int) then (channel_ids.length : Int) else tc0) []
  have hsplit := filter_length_split (is_suitable_recommended_channel_id env) channel_ids
  refine ⟨⟨(reconcile_loop env channel_ids
      (if tc0 < (channel_ids.length : Int) then (channel_ids.length : Int) else tc0) []).2,
    (reconcile_loop env channel_ids
      (if tc0 < (channel_ids.length : Int) then (channel_ids.length : Int) else tc0) []).1,
    env.now + CHANNEL_RECOMMENDATIONS_CACHE_TIME⟩, ?_, ?_, ?_, ?_, ?_, ?_⟩
  · simp [on_get_channel_recommendations, hclose, finish_load_channel_recommendations_queries,
      lookA_setA_self]
  · simpa using hrl.2
  · exact hrl.1
  · rw [hrl.1, hrl.2]
    simp only [List.nil_append, List.length_map]
    split <;> omega
  · rw [hrl.1]
    dsimp only
    split <;> omega
  · intro hdb
    simp [on_get_channel_recommendations, hclose, hdb, hrl.1, hrl.2]

/-- A concrete environment used by the closed witness instances: channels
with an even identifier are already joined, everything is visible, the
message database is in use, the clock reads 100. -/
def envA : Env where
  have_dialog := fun _ => true
  is_broadcast_channel := fun _ => true
  have_input_channel := fun _ => true
  is_member := fun c => decide (c % 2 = 0)
  have_input_peer_read := fun _ => true
  is_premium := false
  use_message_database := true
  resolve_force_ok := fun _ => true
  close_flag := false
  close_status := ⟨500, "Request aborted"⟩
  now := 100

theorem c2_witness :
    envA.close_flag = false ∧
    ∃ r, lookA 5 (on_get_channel_recommendations envA initialState 5
          (.ok (2, [1, 2, 3]))).1.channel_recommended_dialogs = some r ∧
      r.dialog_ids =
        (([1, 2, 3] : List ChannelId).filter
          (is_suitable_recommended_channel_id envA)).map DialogId.channel ∧
      r.total_count =
        (if (2 : Int) < (([1, 2, 3] : List ChannelId).length : Int)
          then (([1, 2, 3] : List ChannelId).length : Int) else 2) -
          ((([1, 2, 3] : List ChannelId).filter
            (fun x => !is_suitable_recommended_channel_id envA x)).length : Int) ∧
      (r.dialog_ids.length : Int) ≤ r.total_count ∧ 0 ≤ r.total_count ∧
      (envA.use_message_database = true →
        Event.dbSet 5 r.store ∈ (on_get_channel_recommendations envA initialState 5
          (.ok (2, [1, 2, 3]))).2) :=
  ⟨rfl, c2_reconciliation_invariant envA initialState 5 2 [1, 2, 3] rfl⟩

/-! ### C4: failure fan-out leaves the cache untouched -/

/-- C4: when the remote fetch fails, the cache map is not mutated in any
way, every queued count waiter of both partitions and every non-null list
waiter receives the propagated error, all three queues for the channel are
emptied, and nothing but those error resolutions happens. -/
theorem c4_failure_fanout (env : Env) (s : ManagerState) (c : ChannelId) (e : Err) :
    (on_get_channel_recommendations env s c (.error e)).1.channel_recommended_dialogs
        = s.channel_recommended_dialogs ∧
    (∀ p ∈ countQ0 s c,
      Event.countError p e ∈ (on_get_channel_recommendations env s c (.error e)).2) ∧
    (∀ p ∈ countQ1 s c,
      Event.countError p e ∈ (on_get_channel_recommendations env s c (.error e)).2) ∧
    (∀ p, some p ∈ listQ s c →
      Event.chatsError p e ∈ (on_get_channel_recommendations env s c (.error e)).2) ∧
    (∀ ev ∈ (on_get_channel_recommendations env s c (.error e)).2,
      (∃ p, ev = Event.countError p e) ∨ (∃ p, ev = Event.chatsError p e)) ∧
    listQ (on_get_channel_recommendations env s c (.error e)).1 c = [] ∧
    countQ0 (on_get_channel_recommendations env s c (.error e)).1 c = [] ∧
    countQ1 (on_get_channel_recommendations env s c (.error e)).1 c = [] := by
  have hred : on_get_channel_recommendations env s c (.error e) =
      fail_load_channel_recommendations_queries s c e := by
    cases hcf : env.close_flag <;>
      simp [on_get_channel_recommendations, hcf]
  rw [hred]
  refine ⟨rfl, ?_, ?_, ?_, ?_, ?_, ?_, ?_⟩
  · intro p hp
    simp only [fail_load_channel_recommendations_queries, List.mem_append]
    exact Or.inl (Or.inl (List.mem_map.mpr ⟨p, hp, rfl⟩))
  · intro p hp
    simp only [fail_load_channel_recommendations_queries, List.mem_append]
    exact Or.inl (Or.inr (List.mem_map.mpr ⟨p, hp, rfl⟩))
  · intro p hp
    simp only [fail_load_channel_recommendations_queries, List.mem_append]
    exact Or.inr (List.mem_filterMap.mpr ⟨some p, hp, rfl⟩)
  · intro ev hev
    simp only [fail_load_channel_recommendations_queries, List.mem_append,
      List.mem_map, List.mem_filterMap] at hev
    rcases hev with (⟨p, _, rfl⟩ | ⟨p, _, rfl⟩) | ⟨op, _, hop⟩
    · exact Or.inl ⟨p, rfl⟩
    · exact Or.inl ⟨p, rfl⟩
    · cases op with
      | none => exact absurd hop (by simp)
      | some p =>
          refine Or.inr ⟨p, ?_⟩
          simpa using hop.symm
  · simp [fail_load_channel_recommendations_queries, listQ, lookA_eraseA_self]
  · simp [fail_load_channel_recommendations_queries, countQ0, lookA_eraseA_self]
  · simp [fail_load_channel_recommendations_queries, countQ1, lookA_eraseA_self]

theorem c4_witness :
    (on_get_channel_recommendations envA ⟨[(9, ⟨[], 4, 50⟩)], [(5, [some 1, none])],
        [(5, [2])], [(5, [3])]⟩ 5 (.error ⟨429, "Too Many Requests"⟩)).1.channel_recommended_dialogs
      = [(9, ⟨[], 4, 50⟩)] ∧
    Event.countError 2 ⟨429, "Too Many Requests"⟩ ∈
      (on_get_channel_recommendations envA ⟨[(9, ⟨[], 4, 50⟩)], [(5, [some 1, none])],
        [(5, [2])], [(5, [3])]⟩ 5 (.error ⟨429, "Too Many Requests"⟩)).2 ∧
    Event.countError 3 ⟨429, "Too Many Requests"⟩ ∈
      (on_get_channel_recommendations envA ⟨[(9, ⟨[], 4, 50⟩)], [(5, [some 1, none])],
        [(5, [2])], [(5, [3])]⟩ 5 (.error ⟨429, "Too Many Requests"⟩)).2 ∧
    Event.chatsError 1 ⟨429, "Too Many Requests"⟩ ∈
      (on_get_channel_recommendations envA ⟨[(9, ⟨[], 4, 50⟩)], [(5, [some 1, none])],
        [(5, [2])], [(5, [3])]⟩ 5 (.error ⟨429, "Too Many Requests"⟩)).2 :=
  ⟨(c4_failure_fanout envA _ 5 _).1,
    (c4_failure_fanout envA _ 5 _).2.1 2 (by decide),
    (c4_failure_fanout envA _ 5 _).2.2.1 3 (by decide),
    (c4_failure_fanout envA _ 5 _).2.2.2.1 1 (by decide)⟩

/-! ### C5: corrupted database record self-heals as a cache miss -/

/-- C5: a non-empty database value that fails to parse is handled as a
recoverable miss: the in-memory entry for that channel is erased (others
untouched), the persisted entry is erased, the episode proceeds to the
remote fetch, and no waiter receives any error from it. -/
theorem c5_corrupted_record_self_heal (env : Env) (s : ManagerState) (c : ChannelId)
    (value : List SerTok) (hclose : env.close_flag = false) (hval : value ≠ [])
    (hparse : RecommendedDialogs.parse value = none) :
    lookA c (on_load_channel_recommendations_from_database env s c
        value).1.channel_recommended_dialogs = none ∧
    (∀ c', c' ≠ c → lookA c' (on_load_channel_recommendations_from_database env s c
        value).1.channel_recommended_dialogs = lookA c' s.channel_recommended_dialogs) ∧
    Event.dbErase c ∈ (on_load_channel_recommendations_from_database env s c value).2 ∧
    Event.remoteFetch c ∈ (on_load_channel_recommendations_from_database env s c value).2 ∧
    (∀ ev ∈ (on_load_channel_recommendations_from_database env s c value).2,
      (∀ p err, ev ≠ Event.chatsError p err) ∧ (∀ p err, ev ≠ Event.countError p err)) := by
  obtain ⟨m, lq, q0, q1⟩ := s
  have hne : value.isEmpty = false := by
    cases value with
    | nil => exact absurd rfl hval
    | cons a l => rfl
  have hred : on_load_channel_recommendations_from_database env ⟨m, lq, q0, q1⟩ c value =
      (⟨eraseA c m, lq, q0, eraseA c q1⟩,
        Event.dbErase c :: (((lookA c q1).getD []).map (fun p => Event.countValue p (-1)) ++
          [Event.remoteFetch c])) := by
    simp [on_load_channel_recommendations_from_database, hclose, hne, hparse,
      reload_channel_recommendations, countQ1]
  rw [hred]
  refine ⟨lookA_eraseA_self c m, fun c' hc' => lookA_eraseA_ne hc' m, by simp, by simp, ?_⟩
  intro ev hev
  simp only [List.mem_cons, List.mem_append, List.mem_map, List.not_mem_nil, or_false] at hev
  rcases hev with rfl | (⟨p, _, rfl⟩ | rfl) <;>
    exact ⟨fun p err => by simp, fun p err => by simp⟩

/-- Concrete pre-state for the C5 witness: a cached entry and one queued
list waiter for channel 5. -/
def stateC5 : ManagerState :=
  ⟨[(5, ⟨[DialogId.channel 1], 1, 50⟩)], [(5, [some 1])], [], []⟩

theorem c5_witness :
    lookA 5 (on_load_channel_recommendations_from_database envA stateC5 5
        [SerTok.timeTok 0]).1.channel_recommended_dialogs = none ∧
    Event.dbErase 5 ∈
      (on_load_channel_recommendations_from_database envA stateC5 5 [SerTok.timeTok 0]).2 ∧
    Event.remoteFetch 5 ∈
      (on_load_channel_recommendations_from_database envA stateC5 5 [SerTok.timeTok 0]).2 :=
  ⟨(c5_corrupted_record_self_heal envA stateC5 5 [SerTok.timeTok 0] rfl (by decide) rfl).1,
    (c5_corrupted_record_self_heal envA stateC5 5 [SerTok.timeTok 0] rfl (by decide) rfl).2.2.1,
    (c5_corrupted_record_self_heal envA stateC5 5 [SerTok.timeTok 0] rfl (by decide)
      rfl).2.2.2.1⟩

/-! ### Basic facts about `load_channel_recommendations` -/

theorem listQ_pushCount (rl : Bool) (c : ChannelId) (p : PromiseId) (s : ManagerState)
    (c' : ChannelId) : listQ (pushCount rl c p s) c' = listQ s c' := by
  cases rl <;> rfl

theorem cache_pushCount (rl : Bool) (c : ChannelId) (p : PromiseId) (s : ManagerState) :
    (pushCount rl c p s).channel_recommended_dialogs = s.channel_recommended_dialogs := by
  cases rl <;> rfl

/-- A first enqueue (empty list queue) with `use_database = false` starts a
fresh reload: the remote query is dispatched, the only other possible
events are the `-1` sentinel resolutions of partition 1, the list queue
becomes the singleton of this caller's chats promise, and the record cache
is untouched. -/
theorem load_first_no_db (env : Env) (s : ManagerState) (c : ChannelId) (rl : Bool)
    (cp kp : Option PromiseId) (hq : listQ s c = []) :
    Event.remoteFetch c ∈ (load_channel_recommendations env s c false rl cp kp).2 ∧
    (∀ ev ∈ (load_channel_recommendations env s c false rl cp kp).2,
      ev = Event.remoteFetch c ∨ ∃ p, ev = Event.countValue p (-1)) ∧
    listQ (load_channel_recommendations env s c false rl cp kp).1 c = [cp] ∧
    (load_channel_recommendations env s c false rl cp
        kp).1.channel_recommended_dialogs = s.channel_recommended_dialogs := by
  obtain ⟨m, lq, q0, q1⟩ := s
  have hq' : (lookA c lq).getD [] = [] := hq
  have hshape : ∀ (L : List PromiseId) (ev : Event),
      ev ∈ L.map (fun p => Event.countValue p (-1)) ++ [Event.remoteFetch c] →
      ev = Event.remoteFetch c ∨ ∃ p, ev = Event.countValue p (-1) := by
    intro L ev hev
    rcases List.mem_append.mp hev with h | h
    · obtain ⟨p, _, rfl⟩ := List.mem_map.mp h
      exact Or.inr ⟨p, rfl⟩
    · rcases List.mem_cons.mp h with rfl | h2
      · exact Or.inl rfl
      · exact absurd h2 (List.not_mem_nil _)
  cases kp with
  | none =>
      have hred : load_channel_recommendations env ⟨m, lq, q0, q1⟩ c false rl cp none =
          (⟨m, setA c [cp] lq, q0, eraseA c q1⟩,
            ((lookA c q1).getD []).map (fun p => Event.countValue p (-1)) ++
              [Event.remoteFetch c]) := by
        simp [load_channel_recommendations, reload_channel_recommendations, listQ, countQ1, hq']
      rw [hred]
      exact ⟨List.mem_append_right _ (List.mem_cons_self _ _), hshape _,
        by simp [listQ, lookA_setA_self], rfl⟩
  | some k =>
      cases rl with
      | false =>
          have hred : load_channel_recommendations env ⟨m, lq, q0, q1⟩ c false false cp
              (some k) =
              (⟨m, setA c [cp] lq, setA c ((lookA c q0).getD [] ++ [k]) q0, eraseA c q1⟩,
                ((lookA c q1).getD []).map (fun p => Event.countValue p (-1)) ++
                  [Event.remoteFetch c]) := by
            simp [load_channel_recommendations, pushCount, reload_channel_recommendations,
              listQ, countQ0, countQ1, hq']
          rw [hred]
          exact ⟨List.mem_append_right _ (List.mem_cons_self _ _), hshape _,
            by simp [listQ, lookA_setA_self], rfl⟩
      | true =>
          have hred : load_channel_recommendations env ⟨m, lq, q0, q1⟩ c false true cp
              (some k) =
              (⟨m, setA c [cp] lq, q0, eraseA c (setA c ((lookA c q1).getD [] ++ [k]) q1)⟩,
                ((lookA c q1).getD [] ++ [k]).map (fun p => Event.countValue p (-1)) ++
                  [Event.remoteFetch c]) := by
            simp [load_channel_recommendations, pushCount, reload_channel_recommendations,
              listQ, countQ0, countQ1, hq', lookA_setA_self]
          rw [hred]
          exact ⟨List.mem_append_right _ (List.mem_cons_self _ _), hshape _,
            by simp [listQ, lookA_setA_self], rfl⟩

/-- A first enqueue with `use_database = true` while the message database
is used starts the database read and nothing else. -/
theorem load_first_db (env : Env) (s : ManagerState) (c : ChannelId) (rl : Bool)
    (cp kp : Option PromiseId) (hq : listQ s c = [])
    (humb : env.use_message_database = true) :
    (load_channel_recommendations env s c true rl cp kp).2 = [Event.dbGet c] ∧
    listQ (load_channel_recommendations env s c true rl cp kp).1 c = [cp] ∧
    (load_channel_recommendations env s c true rl cp
        kp).1.channel_recommended_dialogs = s.channel_recommended_dialogs := by
  obtain ⟨m, lq, q0, q1⟩ := s
  have hq' : (lookA c lq).getD [] = [] := hq
  cases kp with
  | none =>
      have hred : load_channel_recommendations env ⟨m, lq, q0, q1⟩ c true rl cp none =
          (⟨m, setA c [cp] lq, q0, q1⟩, [Event.dbGet c]) := by
        simp [load_channel_recommendations, listQ, hq', humb]
      rw [hred]
      exact ⟨rfl, by simp [listQ, lookA_setA_self], rfl⟩
  | some k =>
      cases rl with
      | false =>
          have hred : load_channel_recommendations env ⟨m, lq, q0, q1⟩ c true false cp
              (some k) =
              (⟨m, setA c [cp] lq, setA c ((lookA c q0).getD [] ++ [k]) q0, q1⟩,
                [Event.dbGet c]) := by
            simp [load_channel_recommendations, pushCount, listQ, countQ0, hq', humb]
          rw [hred]
          exact ⟨rfl, by simp [listQ, lookA_setA_self], rfl⟩
      | true =>
          have hred : load_channel_recommendations env ⟨m, lq, q0, q1⟩ c true true cp
              (some k) =
              (⟨m, setA c [cp] lq, q0, setA c ((lookA c q1).getD [] ++ [k]) q1⟩,
                [Event.dbGet c]) := by
            simp [load_channel_recommendations, pushCount, listQ, countQ1, hq', humb]
          rw [hred]
          exact ⟨rfl, by simp [listQ, lookA_setA_self], rfl⟩

/-! ### C3: memory-cache hit -/

/-- C3: on a validated memory-cache hit the caller's promises are resolved
at once from the cached record; a fresh record (`now < next_reload_time`)
causes an immediate return with no state change and no fetch, while a
stale one additionally starts one background refresh whose only queued
waiter is a null promise, so that a later completion of that refresh
resolves nobody (success or failure). -/
theorem c3_cache_hit (env : Env) (s : ManagerState) (c : ChannelId) (rl : Bool)
    (cp kp : Option PromiseId) (r : RecommendedDialogs)
    (hd : env.have_dialog (DialogId.channel c) = true)
    (hb : env.is_broadcast_channel c = true)
    (hi : env.have_input_channel c = true)
    (hr : lookA c s.channel_recommended_dialogs = some r)
    (hs : are_suitable_recommended_dialogs env r = true)
    (hq : listQ s c = []) (hq0 : countQ0 s c = []) (hq1 : countQ1 s c = []) :
    (env.now < r.next_reload_time →
      get_channel_recommendations env s (DialogId.channel c) rl cp kp =
        (s, optEv cp (fun p => Event.chatsValue p r.total_count r.dialog_ids) ++
            optEv kp (fun p => Event.countValue p r.total_count))) ∧
    (r.next_reload_time ≤ env.now →
      (get_channel_recommendations env s (DialogId.channel c) rl cp kp).2 =
        optEv cp (fun p => Event.chatsValue p r.total_count r.dialog_ids) ++
          optEv kp (fun p => Event.countValue p r.total_count) ++ [Event.remoteFetch c] ∧
      listQ (get_channel_recommendations env s (DialogId.channel c) rl cp kp).1 c = [none] ∧
      (∀ tc ds, (finish_load_channel_recommendations_queries
          (get_channel_recommendations env s (DialogId.channel c) rl cp kp).1 c tc ds).2 = []) ∧
      (∀ e2, (fail_load_channel_recommendations_queries
          (get_channel_recommendations env s (DialogId.channel c) rl cp kp).1 c e2).2 = [])) := by
  obtain ⟨m, lq, q0, q1⟩ := s
  simp only [listQ, countQ0, countQ1] at hq hq0 hq1
  constructor
  · intro hfresh
    simp [get_channel_recommendations, DialogId.isChannel, DialogId.channelId, hd, hb, hi,
      hr, hs, hfresh]
  · intro hstale
    have hget : get_channel_recommendations env ⟨m, lq, q0, q1⟩ (DialogId.channel c) rl cp kp =
        (⟨m, setA c [none] lq, q0, eraseA c q1⟩,
          optEv cp (fun p => Event.chatsValue p r.total_count r.dialog_ids) ++
            (optEv kp (fun p => Event.countValue p r.total_count) ++ [Event.remoteFetch c])) := by
      simp [get_channel_recommendations, DialogId.isChannel, DialogId.channelId, hd, hb, hi,
        hr, hs, not_lt.mpr hstale, load_channel_recommendations, reload_channel_recommendations,
        listQ, countQ1, hq, hq1]
    rw [hget]
    refine ⟨by simp, by simp [listQ, lookA_setA_self], ?_, ?_⟩
    · intro tc ds
      simp [finish_load_channel_recommendations_queries, listQ, countQ0, countQ1,
        lookA_setA_self, lookA_eraseA_self, hq0]
    · intro e2
      simp [fail_load_channel_recommendations_queries, listQ, countQ0, countQ1,
        lookA_setA_self, lookA_eraseA_self, hq0]

/-- Concrete complete record and pre-state for the C3 witness: channel 5
has a cached record recommending channel 1, fresh until time 1000. -/
def recC3 : RecommendedDialogs := ⟨[DialogId.channel 1], 1, 1000⟩

def stateC3 : ManagerState := ⟨[(5, recC3)], [], [], []⟩

theorem c3_witness :
    get_channel_recommendations envA stateC3 (DialogId.channel 5) false (some 1) (some 2) =
      (stateC3, [Event.chatsValue 1 1 [DialogId.channel 1], Event.countValue 2 1]) := by
  have h := (c3_cache_hit envA stateC3 5 false (some 1) (some 2) recC3 rfl rfl rfl
    (by decide) (by decide) rfl rfl rfl).1 (by decide)
  simpa [optEv, recC3] using h

/-! ### C9: an invalidated cache hit does not retry the database -/

/-- A premium-account environment in which no channel is joined and
everything is readable; the message database is in use. -/
def envB : Env where
  have_dialog := fun _ => true
  is_broadcast_channel := fun _ => true
  have_input_channel := fun _ => true
  is_member := fun _ => false
  have_input_peer_read := fun _ => true
  is_premium := true
  use_message_database := true
  resolve_force_ok := fun _ => true
  close_flag := false
  close_status := ⟨500, "Request aborted"⟩
  now := 100

/-- A partial record (1 cached entity of a claimed 5): under `envB` the
premium completeness rule makes it fail validation. -/
def recC9 : RecommendedDialogs := ⟨[DialogId.channel 1], 5, 1000⟩

def stateC9 : ManagerState := ⟨[(5, recC9)], [], [], []⟩

/-- C9 counterexample: with persistence enabled and no `return_local`
demand, a cache hit that fails validation does NOT attempt the database
load — the episode dispatches the remote query directly, because the
fall-through sets `use_database = false` whenever an in-memory entry was
found. -/
theorem c9_counterexample :
    are_suitable_recommended_dialogs envB recC9 = false ∧
    lookA 5 stateC9.channel_recommended_dialogs = some recC9 ∧
    envB.use_message_database = true ∧
    Event.dbGet 5 ∉
      (get_channel_recommendations envB stateC9 (DialogId.channel 5) false (some 1)
        (some 2)).2 ∧
    Event.remoteFetch 5 ∈
      (get_channel_recommendations envB stateC9 (DialogId.channel 5) false (some 1)
        (some 2)).2 := by
  decide

/-- C9 (amended): a memory-cached record failing validation is invalidated
(memory entry erased, persisted entry erased when the database is used) and
the request falls through to the miss path with the database lookup
disabled, so a first enqueuer proceeds directly to the remote fetch; the
persistent-store load is attempted only on a true miss (no in-memory
entry) with the message database in use. -/
theorem c9_amended_invalidated_hit (env : Env) (s : ManagerState) (c : ChannelId)
    (rl : Bool) (cp kp : Option PromiseId)
    (hd : env.have_dialog (DialogId.channel c) = true)
    (hb : env.is_broadcast_channel c = true)
    (hi : env.have_input_channel c = true)
    (hq : listQ s c = []) :
    (∀ r, lookA c s.channel_recommended_dialogs = some r →
      are_suitable_recommended_dialogs env r = false →
      lookA c (get_channel_recommendations env s (DialogId.channel c) rl cp
          kp).1.channel_recommended_dialogs = none ∧
      (env.use_message_database = true →
        Event.dbErase c ∈ (get_channel_recommendations env s (DialogId.channel c) rl cp kp).2) ∧
      Event.remoteFetch c ∈
        (get_channel_recommendations env s (DialogId.channel c) rl cp kp).2 ∧
      Event.dbGet c ∉ (get_channel_recommendations env s (DialogId.channel c) rl cp kp).2 ∧
      listQ (get_channel_recommendations env s (DialogId.channel c) rl cp kp).1 c = [cp]) ∧
    (lookA c s.channel_recommended_dialogs = none → env.use_message_database = true →
      (get_channel_recommendations env s (DialogId.channel c) rl cp kp).2 = [Event.dbGet c] ∧
      listQ (get_channel_recommendations env s (DialogId.channel c) rl cp kp).1 c = [cp]) := by
  obtain ⟨m, lq, q0, q1⟩ := s
  constructor
  · intro r hr hsf
    have hq1 : listQ (⟨eraseA c m, lq, q0, q1⟩ : ManagerState) c = [] := hq
    have hload := load_first_no_db env ⟨eraseA c m, lq, q0, q1⟩ c rl cp kp hq1
    have hget : get_channel_recommendations env ⟨m, lq, q0, q1⟩ (DialogId.channel c) rl cp kp =
        ((load_channel_recommendations env ⟨eraseA c m, lq, q0, q1⟩ c false rl cp kp).1,
          (if env.use_message_database then [Event.dbErase c] else []) ++
            (load_channel_recommendations env ⟨eraseA c m, lq, q0, q1⟩ c false rl cp kp).2) := by
      simp [get_channel_recommendations, DialogId.isChannel, DialogId.channelId, hd, hb, hi,
        hr, hsf]
    rw [hget]
    refine ⟨?_, ?_, ?_, ?_, ?_⟩
    · rw [hload.2.2.2]
      exact lookA_eraseA_self c _
    · intro humb
      simp [humb]
    · exact List.mem_append_right _ hload.1
    · intro hmem
      rcases List.mem_append.mp hmem with h1 | h2
      · rcases Bool.eq_false_or_eq_true env.use_message_database with hu | hu <;>
          simp [hu] at h1
      · rcases hload.2.1 _ h2 with h3 | ⟨p, h3⟩ <;> simp at h3
    · exact hload.2.2.1
  · intro hmiss humb
    have hload := load_first_db env ⟨m, lq, q0, q1⟩ c rl cp kp hq humb
    have hget : get_channel_recommendations env ⟨m, lq, q0, q1⟩ (DialogId.channel c) rl cp kp =
        load_channel_recommendations env ⟨m, lq, q0, q1⟩ c true rl cp kp := by
      simp [get_channel_recommendations, DialogId.isChannel, DialogId.channelId, hd, hb, hi,
        hmiss]
    rw [hget]
    exact ⟨hload.1, hload.2.1⟩

theorem c9_amended_witness :
    lookA 5 (get_channel_recommendations envB stateC9 (DialogId.channel 5) false (some 1)
        (some 2)).1.channel_recommended_dialogs = none ∧
    Event.dbErase 5 ∈
      (get_channel_recommendations envB stateC9 (DialogId.channel 5) false (some 1)
        (some 2)).2 ∧
    listQ (get_channel_recommendations envB stateC9 (DialogId.channel 5) false (some 1)
        (some 2)).1 5 = [some 1] := by
  have h := (c9_amended_invalidated_hit envB stateC9 5 false (some 1) (some 2)
    rfl rfl rfl rfl).1 recC9 (by decide) (by decide)
  exact ⟨h.1, h.2.1 rfl, h.2.2.2.2⟩

/-! ### Witness instances for the hypothesis-free claims -/

theorem c6_witness :
    ((∃ l, SerTok.dialogsTok l ∈ (⟨[DialogId.channel 3], 7, 42⟩ :
        RecommendedDialogs).store) ↔ ([DialogId.channel 3] : List DialogId) ≠ []) ∧
    ((∃ tc, SerTok.countTok tc ∈ (⟨[DialogId.channel 3], 7, 42⟩ :
        RecommendedDialogs).store) ↔ (7 : Int) ≠ (([DialogId.channel 3] : List DialogId).length : Int)) ∧
    RecommendedDialogs.parse (⟨[DialogId.channel 3], 7, 42⟩ : RecommendedDialogs).store =
      some ⟨[DialogId.channel 3], 7, 42⟩ :=
  c6_store_parse_round_trip ⟨[DialogId.channel 3], 7, 42⟩

theorem c8_witness :
    are_suitable_recommended_dialogs envA recC3 = true ↔
      ((∀ d ∈ recC3.dialog_ids, ∃ cid, d = DialogId.channel cid ∧
          envA.is_member cid = false ∧ envA.have_input_peer_read cid = true) ∧
        ((recC3.dialog_ids.length : Int) = recC3.total_count ∨ envA.is_premium = false)) :=
  c8_validation_iff envA recC3

/-! ### C1: request coalescing -/

/-- The arguments a `get_channel_recommendations` caller contributes to one
`load_channel_recommendations` enqueue. -/
structure Call where
  return_local : Bool
  chats_promise : Option PromiseId
  count_promise : Option PromiseId
deriving DecidableEq

/-- Run a sequence of `load_channel_recommendations` calls for the same
channel back to back (the serialized actor context), collecting events. -/
def runLoads (env : Env) (c : ChannelId) (ud : Bool) :
    List Call → ManagerState → ManagerState × List Event
  | [], s => (s, [])
  | call :: rest, s =>
      let r1 := load_channel_recommendations env s c ud call.return_local
        call.chats_promise call.count_promise
      let r2 := runLoads env c ud rest r1.1
      (r2.1, r1.2 ++ r2.2)

/-- Is this event the start of a fetch episode (database read or remote
query dispatch)? -/
def isStart (ev : Event) : Bool :=
  match ev with
  | .dbGet _ => true
  | .remoteFetch _ => true
  | _ => false

/-- Number of episode starts among the events. -/
def countStarts (evs : List Event) : Nat := (evs.filter isStart).length

theorem countStarts_sentinels (L : List PromiseId) (c : ChannelId) :
    countStarts (L.map (fun p => Event.countValue p (-1)) ++ [Event.remoteFetch c]) = 1 := by
  induction L with
  | nil => rfl
  | cons a t ih =>
      simp only [List.map_cons, List.cons_append, countStarts, isStart, List.filter_cons] at ih ⊢
      exact ih

theorem sentinel_shape (L : List PromiseId) (c : ChannelId) :
    ∀ ev ∈ L.map (fun p => Event.countValue p (-1)) ++ [Event.remoteFetch c],
      ev = Event.dbGet c ∨ ev = Event.remoteFetch c ∨ ∃ p, ev = Event.countValue p (-1) := by
  intro ev hev
  rcases List.mem_append.mp hev with h | h
  · obtain ⟨p, _, rfl⟩ := List.mem_map.mp h
    exact Or.inr (Or.inr ⟨p, rfl⟩)
  · rcases List.mem_cons.mp h with rfl | h2
    · exact Or.inr (Or.inl rfl)
    · exact absurd h2 (List.not_mem_nil _)

/-- Every event of a `finish` fan-out carries the episode's single result. -/
theorem finish_shape (s : ManagerState) (c : ChannelId) (tc : Int) (ds : List DialogId) :
    ∀ ev ∈ (finish_load_channel_recommendations_queries s c tc ds).2,
      (∃ p, ev = Event.chatsValue p tc ds) ∨ (∃ p, ev = Event.countValue p tc) := by
  intro ev hev
  simp only [finish_load_channel_recommendations_queries, List.mem_append, List.mem_map,
    List.mem_filterMap] at hev
  rcases hev with (⟨p, _, rfl⟩ | ⟨p, _, rfl⟩) | ⟨op, _, hop⟩
  · exact Or.inr ⟨p, rfl⟩
  · exact Or.inr ⟨p, rfl⟩
  · cases op with
    | none => exact absurd hop (by simp)
    | some p =>
        refine Or.inl ⟨p, ?_⟩
        simpa using hop.symm

/-- Every queued non-null list waiter is resolved by `finish`. -/
theorem finish_mem_list (s : ManagerState) (c : ChannelId) (tc : Int) (ds : List DialogId)
    (p : PromiseId) (hp : some p ∈ listQ s c) :
    Event.chatsValue p tc ds ∈ (finish_load_channel_recommendations_queries s c tc ds).2 := by
  simp only [finish_load_channel_recommendations_queries, List.mem_append]
  exact Or.inr (List.mem_filterMap.mpr ⟨some p, hp, rfl⟩)

/-- Every waiter queued in count partition 0 is resolved by `finish`. -/
theorem finish_mem_count0 (s : ManagerState) (c : ChannelId) (tc : Int) (ds : List DialogId)
    (p : PromiseId) (hp : p ∈ countQ0 s c) :
    Event.countValue p tc ∈ (finish_load_channel_recommendations_queries s c tc ds).2 := by
  simp only [finish_load_channel_recommendations_queries, List.mem_append]
  exact Or.inl (Or.inl (List.mem_map.mpr ⟨p, hp, rfl⟩))

/-- Every waiter queued in count partition 1 is resolved by `finish`. -/
theorem finish_mem_count1 (s : ManagerState) (c : ChannelId) (tc : Int) (ds : List DialogId)
    (p : PromiseId) (hp : p ∈ countQ1 s c) :
    Event.countValue p tc ∈ (finish_load_channel_recommendations_queries s c tc ds).2 := by
  simp only [finish_load_channel_recommendations_queries, List.mem_append]
  exact Or.inl (Or.inr (List.mem_map.mpr ⟨p, hp, rfl⟩))

/-- Every queued non-null list waiter receives the error from `fail`. -/
theorem fail_mem_list (s : ManagerState) (c : ChannelId) (e : Err)
    (p : PromiseId) (hp : some p ∈ listQ s c) :
    Event.chatsError p e ∈ (fail_load_channel_recommendations_queries s c e).2 := by
  simp only [fail_load_channel_recommendations_queries, List.mem_append]
  exact Or.inr (List.mem_filterMap.mpr ⟨some p, hp, rfl⟩)

/-- Every waiter queued in count partition 0 receives the error from
`fail`. -/
theorem fail_mem_count0 (s : ManagerState) (c : ChannelId) (e : Err)
    (p : PromiseId) (hp : p ∈ countQ0 s c) :
    Event.countError p e ∈ (fail_load_channel_recommendations_queries s c e).2 := by
  simp only [fail_load_channel_recommendations_queries, List.mem_append]
  exact Or.inl (Or.inl (List.mem_map.mpr ⟨p, hp, rfl⟩))

/-- Every waiter queued in count partition 1 receives the error from
`fail`. -/
theorem fail_mem_count1 (s : ManagerState) (c : ChannelId) (e : Err)
    (p : PromiseId) (hp : p ∈ countQ1 s c) :
    Event.countError p e ∈ (fail_load_channel_recommendations_queries s c e).2 := by
  simp only [fail_load_channel_recommendations_queries, List.mem_append]
  exact Or.inl (Or.inr (List.mem_map.mpr ⟨p, hp, rfl⟩))

/-- Every event of a `fail` fan-out carries the episode's single error. -/
theorem fail_shape (s : ManagerState) (c : ChannelId) (e : Err) :
    ∀ ev ∈ (fail_load_channel_recommendations_queries s c e).2,
      (∃ p, ev = Event.chatsError p e) ∨ (∃ p, ev = Event.countError p e) := by
  intro ev hev
  simp only [fail_load_channel_recommendations_queries, List.mem_append, List.mem_map,
    List.mem_filterMap] at hev
  rcases hev with (⟨p, _, rfl⟩ | ⟨p, _, rfl⟩) | ⟨op, _, hop⟩
  · exact Or.inr ⟨p, rfl⟩
  · exact Or.inr ⟨p, rfl⟩
  · cases op with
    | none => exact absurd hop (by simp)
    | some p =>
        refine Or.inl ⟨p, ?_⟩
        simpa using hop.symm

/-- A `load_channel_recommendations` call finding a non-empty list queue
emits no event at all and only appends its promises to the queues. -/
theorem load_append (env : Env) (s : ManagerState) (c : ChannelId) (ud rl : Bool)
    (cp kp : Option PromiseId) (hq : listQ s c ≠ []) :
    (load_channel_recommendations env s c ud rl cp kp).2 = [] ∧
    listQ (load_channel_recommendations env s c ud rl cp kp).1 c = listQ s c ++ [cp] ∧
    countQ0 (load_channel_recommendations env s c ud rl cp kp).1 c =
      countQ0 s c ++ (if rl then [] else kp.toList) := by
  obtain ⟨m, lq, q0, q1⟩ := s
  obtain ⟨a, t, hat⟩ := List.exists_cons_of_ne_nil hq
  have hat' : (lookA c lq).getD [] = a :: t := hat
  cases kp with
  | none =>
      have hred : load_channel_recommendations env ⟨m, lq, q0, q1⟩ c ud rl cp none =
          (⟨m, setA c ((a :: t) ++ [cp]) lq, q0, q1⟩, []) := by
        simp [load_channel_recommendations, listQ, hat']
      rw [hred]
      exact ⟨rfl, by simp [listQ, lookA_setA_self, hat'], by simp [countQ0]⟩
  | some k =>
      cases rl with
      | false =>
          have hred : load_channel_recommendations env ⟨m, lq, q0, q1⟩ c ud false cp
              (some k) =
              (⟨m, setA c ((a :: t) ++ [cp]) lq, setA c ((lookA c q0).getD [] ++ [k]) q0, q1⟩,
                []) := by
            simp [load_channel_recommendations, pushCount, listQ, countQ0, hat']
          rw [hred]
          exact ⟨rfl, by simp [listQ, lookA_setA_self, hat'],
            by simp [countQ0, lookA_setA_self]⟩
      | true =>
          have hred : load_channel_recommendations env ⟨m, lq, q0, q1⟩ c ud true cp
              (some k) =
              (⟨m, setA c ((a :: t) ++ [cp]) lq, q0, setA c ((lookA c q1).getD [] ++ [k]) q1⟩,
                []) := by
            simp [load_channel_recommendations, pushCount, listQ, countQ1, hat']
          rw [hred]
          exact ⟨rfl, by simp [listQ, lookA_setA_self, hat'], by simp [countQ0]⟩

/-- A `load_channel_recommendations` call finding a non-empty list queue
appends its `return_local` count promise (if any) to partition 1 and
flushes nothing. -/
theorem load_append_countQ1 (env : Env) (s : ManagerState) (c : ChannelId) (ud rl : Bool)
    (cp kp : Option PromiseId) (hq : listQ s c ≠ []) :
    countQ1 (load_channel_recommendations env s c ud rl cp kp).1 c =
      countQ1 s c ++ (if rl then kp.toList else []) := by
  obtain ⟨m, lq, q0, q1⟩ := s
  obtain ⟨a, t, hat⟩ := List.exists_cons_of_ne_nil hq
  have hat' : (lookA c lq).getD [] = a :: t := hat
  cases kp with
  | none =>
      have hred : load_channel_recommendations env ⟨m, lq, q0, q1⟩ c ud rl cp none =
          (⟨m, setA c ((a :: t) ++ [cp]) lq, q0, q1⟩, []) := by
        simp [load_channel_recommendations, listQ, hat']
      rw [hred]
      simp [countQ1]
  | some k =>
      cases rl with
      | false =>
          have hred : load_channel_recommendations env ⟨m, lq, q0, q1⟩ c ud false cp
              (some k) =
              (⟨m, setA c ((a :: t) ++ [cp]) lq, setA c ((lookA c q0).getD [] ++ [k]) q0, q1⟩,
                []) := by
            simp [load_channel_recommendations, pushCount, listQ, countQ0, hat']
          rw [hred]
          simp [countQ1]
      | true =>
          have hred : load_channel_recommendations env ⟨m, lq, q0, q1⟩ c ud true cp
              (some k) =
              (⟨m, setA c ((a :: t) ++ [cp]) lq, q0, setA c ((lookA c q1).getD [] ++ [k]) q1⟩,
                []) := by
            simp [load_channel_recommendations, pushCount, listQ, countQ1, hat']
          rw [hred]
          simp [countQ1, lookA_setA_self]

/-- A first enqueue that starts the database read (no reload yet) keeps
partition 1 as the old queue plus this caller's `return_local` count
promise, if any. -/
theorem load_first_countQ1_db (env : Env) (s : ManagerState) (c : ChannelId) (ud rl : Bool)
    (cp kp : Option PromiseId) (hq : listQ s c = [])
    (hdb : (env.use_message_database && ud) = true) :
    countQ1 (load_channel_recommendations env s c ud rl cp kp).1 c =
      countQ1 s c ++ (if rl then kp.toList else []) := by
  obtain ⟨m, lq, q0, q1⟩ := s
  have hq' : (lookA c lq).getD [] = [] := hq
  cases kp with
  | none =>
      have hred : load_channel_recommendations env ⟨m, lq, q0, q1⟩ c ud rl cp none =
          (⟨m, setA c [cp] lq, q0, q1⟩, [Event.dbGet c]) := by
        simp [load_channel_recommendations, listQ, hq', hdb]
      rw [hred]
      simp [countQ1]
  | some k =>
      cases rl with
      | false =>
          have hred : load_channel_recommendations env ⟨m, lq, q0, q1⟩ c ud false cp
              (some k) =
              (⟨m, setA c [cp] lq, setA c ((lookA c q0).getD [] ++ [k]) q0, q1⟩,
                [Event.dbGet c]) := by
            simp [load_channel_recommendations, pushCount, listQ, countQ0, hq', hdb]
          rw [hred]
          simp [countQ1]
      | true =>
          have hred : load_channel_recommendations env ⟨m, lq, q0, q1⟩ c ud true cp
              (some k) =
              (⟨m, setA c [cp] lq, q0, setA c ((lookA c q1).getD [] ++ [k]) q1⟩,
                [Event.dbGet c]) := by
            simp [load_channel_recommendations, pushCount, listQ, countQ1, hq', hdb]
          rw [hred]
          simp [countQ1, lookA_setA_self]

/-- A first enqueue that goes straight to the remote reload leaves
partition 1 empty: whatever was queued there (including this caller's own
`return_local` count promise) is flushed with the sentinel. -/
theorem load_first_countQ1_nodb (env : Env) (s : ManagerState) (c : ChannelId) (ud rl : Bool)
    (cp kp : Option PromiseId) (hq : listQ s c = [])
    (hdb : ¬((env.use_message_database && ud) = true)) :
    countQ1 (load_channel_recommendations env s c ud rl cp kp).1 c = [] := by
  obtain ⟨m, lq, q0, q1⟩ := s
  have hq' : (lookA c lq).getD [] = [] := hq
  cases kp with
  | none =>
      have hred : load_channel_recommendations env ⟨m, lq, q0, q1⟩ c ud rl cp none =
          (⟨m, setA c [cp] lq, q0, eraseA c q1⟩,
            ((lookA c q1).getD []).map (fun p => Event.countValue p (-1)) ++
              [Event.remoteFetch c]) := by
        simp [load_channel_recommendations, reload_channel_recommendations, listQ, countQ1,
          hq', hdb]
      rw [hred]
      simp [countQ1, lookA_eraseA_self]
  | some k =>
      cases rl with
      | false =>
          have hred : load_channel_recommendations env ⟨m, lq, q0, q1⟩ c ud false cp
              (some k) =
              (⟨m, setA c [cp] lq, setA c ((lookA c q0).getD [] ++ [k]) q0, eraseA c q1⟩,
                ((lookA c q1).getD []).map (fun p => Event.countValue p (-1)) ++
                  [Event.remoteFetch c]) := by
            simp [load_channel_recommendations, pushCount, reload_channel_recommendations,
              listQ, countQ0, countQ1, hq', hdb]
          rw [hred]
          simp [countQ1, lookA_eraseA_self]
      | true =>
          have hred : load_channel_recommendations env ⟨m, lq, q0, q1⟩ c ud true cp
              (some k) =
              (⟨m, setA c [cp] lq, q0,
                  eraseA c (setA c ((lookA c q1).getD [] ++ [k]) q1)⟩,
                ((lookA c q1).getD [] ++ [k]).map (fun p => Event.countValue p (-1)) ++
                  [Event.remoteFetch c]) := by
            simp [load_channel_recommendations, pushCount, reload_channel_recommendations,
              listQ, countQ0, countQ1, hq', hdb, lookA_setA_self]
          rw [hred]
          simp [countQ1, lookA_eraseA_self]

/-- A `load_channel_recommendations` call finding an empty list queue
starts exactly one episode (database read or remote query), its only other
possible events are the partition-1 sentinel resolutions, and afterwards
the list queue holds exactly this caller's chats promise. -/
theorem load_first_start (env : Env) (s : ManagerState) (c : ChannelId) (ud rl : Bool)
    (cp kp : Option PromiseId) (hq : listQ s c = []) :
    countStarts (load_channel_recommendations env s c ud rl cp kp).2 = 1 ∧
    (∀ ev ∈ (load_channel_recommendations env s c ud rl cp kp).2,
      ev = Event.dbGet c ∨ ev = Event.remoteFetch c ∨ ∃ p, ev = Event.countValue p (-1)) ∧
    listQ (load_channel_recommendations env s c ud rl cp kp).1 c = [cp] ∧
    countQ0 (load_channel_recommendations env s c ud rl cp kp).1 c =
      countQ0 s c ++ (if rl then [] else kp.toList) := by
  obtain ⟨m, lq, q0, q1⟩ := s
  have hq' : (lookA c lq).getD [] = [] := hq
  by_cases hdb : (env.use_message_database && ud) = true
  · cases kp with
    | none =>
        have hred : load_channel_recommendations env ⟨m, lq, q0, q1⟩ c ud rl cp none =
            (⟨m, setA c [cp] lq, q0, q1⟩, [Event.dbGet c]) := by
          simp [load_channel_recommendations, listQ, hq', hdb]
        rw [hred]
        refine ⟨rfl, ?_, by simp [listQ, lookA_setA_self], by simp [countQ0]⟩
        intro ev hev
        rcases List.mem_cons.mp hev with rfl | h2
        · exact Or.inl rfl
        · exact absurd h2 (List.not_mem_nil _)
    | some k =>
        cases rl with
        | false =>
            have hred : load_channel_recommendations env ⟨m, lq, q0, q1⟩ c ud false cp
                (some k) =
                (⟨m, setA c [cp] lq, setA c ((lookA c q0).getD [] ++ [k]) q0, q1⟩,
                  [Event.dbGet c]) := by
              simp [load_channel_recommendations, pushCount, listQ, countQ0, hq', hdb]
            rw [hred]
            refine ⟨rfl, ?_, by simp [listQ, lookA_setA_self],
              by simp [countQ0, lookA_setA_self]⟩
            intro ev hev
            rcases List.mem_cons.mp hev with rfl | h2
            · exact Or.inl rfl
            · exact absurd h2 (List.not_mem_nil _)
        | true =>
            have hred : load_channel_recommendations env ⟨m, lq, q0, q1⟩ c ud true cp
                (some k) =
                (⟨m, setA c [cp] lq, q0, setA c ((lookA c q1).getD [] ++ [k]) q1⟩,
                  [Event.dbGet c]) := by
              simp [load_channel_recommendations, pushCount, listQ, countQ1, hq', hdb]
            rw [hred]
            refine ⟨rfl, ?_, by simp [listQ, lookA_setA_self], by simp [countQ0]⟩
            intro ev hev
            rcases List.mem_cons.mp hev with rfl | h2
            · exact Or.inl rfl
            · exact absurd h2 (List.not_mem_nil _)
  · cases kp with
    | none =>
        have hred : load_channel_recommendations env ⟨m, lq, q0, q1⟩ c ud rl cp none =
            (⟨m, setA c [cp] lq, q0, eraseA c q1⟩,
              ((lookA c q1).getD []).map (fun p => Event.countValue p (-1)) ++
                [Event.remoteFetch c]) := by
          simp [load_channel_recommendations, reload_channel_recommendations, listQ, countQ1,
            hq', hdb]
        rw [hred]
        exact ⟨countStarts_sentinels _ c, sentinel_shape _ c,
          by simp [listQ, lookA_setA_self], by simp [countQ0]⟩
    | some k =>
        cases rl with
        | false =>
            have hred : load_channel_recommendations env ⟨m, lq, q0, q1⟩ c ud false cp
                (some k) =
                (⟨m, setA c [cp] lq, setA c ((lookA c q0).getD [] ++ [k]) q0, eraseA c q1⟩,
                  ((lookA c q1).getD []).map (fun p => Event.countValue p (-1)) ++
                    [Event.remoteFetch c]) := by
              simp [load_channel_recommendations, pushCount, reload_channel_recommendations,
                listQ, countQ0, countQ1, hq', hdb]
            rw [hred]
            exact ⟨countStarts_sentinels _ c, sentinel_shape _ c,
              by simp [listQ, lookA_setA_self], by simp [countQ0, lookA_setA_self]⟩
        | true =>
            have hred : load_channel_recommendations env ⟨m, lq, q0, q1⟩ c ud true cp
                (some k) =
                (⟨m, setA c [cp] lq, q0,
                    eraseA c (setA c ((lookA c q1).getD [] ++ [k]) q1)⟩,
                  ((lookA c q1).getD [] ++ [k]).map (fun p => Event.countValue p (-1)) ++
                    [Event.remoteFetch c]) := by
              simp [load_channel_recommendations, pushCount, reload_channel_recommendations,
                listQ, countQ0, countQ1, hq', hdb, lookA_setA_self]
            rw [hred]
            exact ⟨countStarts_sentinels _ c, sentinel_shape _ c,
              by simp [listQ, lookA_setA_self], by simp [countQ0]⟩

/-- Calls that find a non-empty list queue only append their promises:
no events are emitted at all and the queues accumulate in arrival order. -/
theorem runLoads_tail (env : Env) (c : ChannelId) (ud : Bool) (calls : List Call) :
    ∀ s : ManagerState, listQ s c ≠ [] →
      (runLoads env c ud calls s).2 = [] ∧
      listQ (runLoads env c ud calls s).1 c =
        listQ s c ++ calls.map (fun cl => cl.chats_promise) ∧
      countQ0 (runLoads env c ud calls s).1 c =
        countQ0 s c ++
          (calls.filter (fun cl => !cl.return_local)).filterMap (fun cl => cl.count_promise) := by
  induction calls with
  | nil =>
      intro s hs
      simp [runLoads]
  | cons cl rest ih =>
      intro s hs
      have hl := load_append env s c ud cl.return_local cl.chats_promise cl.count_promise hs
      have hs2 : listQ (load_channel_recommendations env s c ud cl.return_local
          cl.chats_promise cl.count_promise).1 c ≠ [] := by
        rw [hl.2.1]
        simp
      have ht := ih (load_channel_recommendations env s c ud cl.return_local
        cl.chats_promise cl.count_promise).1 hs2
      refine ⟨?_, ?_, ?_⟩
      · simp [runLoads, hl.1, ht.1]
      · simp [runLoads, ht.2.1, hl.2.1]
      · have hcombined : (if cl.return_local then [] else cl.count_promise.toList) ++
            (rest.filter (fun x => !x.return_local)).filterMap (fun x => x.count_promise) =
            ((cl :: rest).filter (fun x => !x.return_local)).filterMap
              (fun x => x.count_promise) := by
          cases hrl : cl.return_local <;> cases hkp : cl.count_promise <;>
            simp [List.filter_cons, hrl, hkp]
        simp [runLoads, ht.2.2, hl.2.2, hcombined]

/-- Calls that find a non-empty list queue accumulate their `return_local`
count promises in partition 1, in arrival order. -/
theorem runLoads_tail_countQ1 (env : Env) (c : ChannelId) (ud : Bool) (calls : List Call) :
    ∀ s : ManagerState, listQ s c ≠ [] →
      countQ1 (runLoads env c ud calls s).1 c =
        countQ1 s c ++
          (calls.filter (fun cl => cl.return_local)).filterMap (fun cl => cl.count_promise) := by
  induction calls with
  | nil =>
      intro s hs
      simp [runLoads]
  | cons cl rest ih =>
      intro s hs
      have hl := load_append env s c ud cl.return_local cl.chats_promise cl.count_promise hs
      have hl1 := load_append_countQ1 env s c ud cl.return_local cl.chats_promise
        cl.count_promise hs
      have hs2 : listQ (load_channel_recommendations env s c ud cl.return_local
          cl.chats_promise cl.count_promise).1 c ≠ [] := by
        rw [hl.2.1]
        simp
      have ht := ih (load_channel_recommendations env s c ud cl.return_local
        cl.chats_promise cl.count_promise).1 hs2
      have hcombined : (if cl.return_local then cl.count_promise.toList else []) ++
          (rest.filter (fun x => x.return_local)).filterMap (fun x => x.count_promise) =
          ((cl :: rest).filter (fun x => x.return_local)).filterMap
            (fun x => x.count_promise) := by
        cases hrl : cl.return_local <;> cases hkp : cl.count_promise <;>
          simp [List.filter_cons, hrl, hkp]
      simp [runLoads, ht, hl1, hcombined]

/-- C1 (amended): among any number of enqueues for one channel arriving
while no episode is pending, only the first (the one making the list queue
have size 1) starts the database load or the remote query; later calls
emit nothing and only append their promises; the episode's completion
resolves every still-queued waiter of every shape — non-null list waiters,
both count partitions, and in particular `return_local` count waiters that
stayed queued behind a database episode — from the one result, and on the
error path every such waiter receives the one error; the only waiters
resolved differently are `return_local` count waiters queued at the
moment a remote reload starts, which receive the sentinel `-1` right
then, so partition 1 is empty at completion in that case. -/
theorem c1_amended_single_flight (env : Env) (s : ManagerState) (c : ChannelId) (ud : Bool)
    (call0 : Call) (rest : List Call)
    (hq : listQ s c = []) (hq0 : countQ0 s c = []) (hq1 : countQ1 s c = []) :
    countStarts (runLoads env c ud (call0 :: rest) s).2 = 1 ∧
    countStarts (load_channel_recommendations env s c ud call0.return_local
        call0.chats_promise call0.count_promise).2 = 1 ∧
    (∀ ev ∈ (runLoads env c ud (call0 :: rest) s).2,
      ev = Event.dbGet c ∨ ev = Event.remoteFetch c ∨ ∃ p, ev = Event.countValue p (-1)) ∧
    listQ (runLoads env c ud (call0 :: rest) s).1 c =
      (call0 :: rest).map (fun cl => cl.chats_promise) ∧
    countQ0 (runLoads env c ud (call0 :: rest) s).1 c =
      ((call0 :: rest).filter (fun cl => !cl.return_local)).filterMap
        (fun cl => cl.count_promise) ∧
    countQ1 (runLoads env c ud (call0 :: rest) s).1 c =
      (if (env.use_message_database && ud) = true
        then ((call0 :: rest).filter (fun cl => cl.return_local)).filterMap
          (fun cl => cl.count_promise)
        else (rest.filter (fun cl => cl.return_local)).filterMap
          (fun cl => cl.count_promise)) ∧
    (∀ tc ds ev, ev ∈ (finish_load_channel_recommendations_queries
        (runLoads env c ud (call0 :: rest) s).1 c tc ds).2 →
      (∃ p, ev = Event.chatsValue p tc ds) ∨ (∃ p, ev = Event.countValue p tc)) ∧
    (∀ tc ds p, some p ∈ (call0 :: rest).map (fun cl => cl.chats_promise) →
      Event.chatsValue p tc ds ∈ (finish_load_channel_recommendations_queries
        (runLoads env c ud (call0 :: rest) s).1 c tc ds).2) ∧
    (∀ tc ds cl p, cl ∈ call0 :: rest → cl.return_local = false →
      cl.count_promise = some p →
      Event.countValue p tc ∈ (finish_load_channel_recommendations_queries
        (runLoads env c ud (call0 :: rest) s).1 c tc ds).2) ∧
    (∀ tc ds p, p ∈ countQ1 (runLoads env c ud (call0 :: rest) s).1 c →
      Event.countValue p tc ∈ (finish_load_channel_recommendations_queries
        (runLoads env c ud (call0 :: rest) s).1 c tc ds).2) ∧
    (∀ tc ds cl p, (env.use_message_database && ud) = true → cl ∈ call0 :: rest →
      cl.return_local = true → cl.count_promise = some p →
      Event.countValue p tc ∈ (finish_load_channel_recommendations_queries
        (runLoads env c ud (call0 :: rest) s).1 c tc ds).2) ∧
    (∀ e2 ev, ev ∈ (fail_load_channel_recommendations_queries
        (runLoads env c ud (call0 :: rest) s).1 c e2).2 →
      (∃ p, ev = Event.chatsError p e2) ∨ (∃ p, ev = Event.countError p e2)) ∧
    (∀ e2 p, some p ∈ (call0 :: rest).map (fun cl => cl.chats_promise) →
      Event.chatsError p e2 ∈ (fail_load_channel_recommendations_queries
        (runLoads env c ud (call0 :: rest) s).1 c e2).2) ∧
    (∀ e2 cl p, cl ∈ call0 :: rest → cl.return_local = false →
      cl.count_promise = some p →
      Event.countError p e2 ∈ (fail_load_channel_recommendations_queries
        (runLoads env c ud (call0 :: rest) s).1 c e2).2) ∧
    (∀ e2 p, p ∈ countQ1 (runLoads env c ud (call0 :: rest) s).1 c →
      Event.countError p e2 ∈ (fail_load_channel_recommendations_queries
        (runLoads env c ud (call0 :: rest) s).1 c e2).2) ∧
    (∀ e2 cl p, (env.use_message_database && ud) = true → cl ∈ call0 :: rest →
      cl.return_local = true → cl.count_promise = some p →
      Event.countError p e2 ∈ (fail_load_channel_recommendations_queries
        (runLoads env c ud (call0 :: rest) s).1 c e2).2) := by
  have h1 := load_first_start env s c ud call0.return_local call0.chats_promise
    call0.count_promise hq
  have hne : listQ (load_channel_recommendations env s c ud call0.return_local
      call0.chats_promise call0.count_promise).1 c ≠ [] := by
    rw [h1.2.2.1]
    simp
  have ht := runLoads_tail env c ud rest
    (load_channel_recommendations env s c ud call0.return_local call0.chats_promise
      call0.count_promise).1 hne
  have hrun : runLoads env c ud (call0 :: rest) s =
      ((runLoads env c ud rest (load_channel_recommendations env s c ud call0.return_local
          call0.chats_promise call0.count_promise).1).1,
        (load_channel_recommendations env s c ud call0.return_local call0.chats_promise
          call0.count_promise).2 ++
          (runLoads env c ud rest (load_channel_recommendations env s c ud call0.return_local
            call0.chats_promise call0.count_promise).1).2) := rfl
  have hlist : listQ (runLoads env c ud (call0 :: rest) s).1 c =
      (call0 :: rest).map (fun cl => cl.chats_promise) := by
    rw [hrun]
    dsimp only
    rw [ht.2.1, h1.2.2.1]
    simp
  have hcnt : countQ0 (runLoads env c ud (call0 :: rest) s).1 c =
      ((call0 :: rest).filter (fun cl => !cl.return_local)).filterMap
        (fun cl => cl.count_promise) := by
    rw [hrun]
    dsimp only
    rw [ht.2.2, h1.2.2.2, hq0]
    cases hrl : call0.return_local <;> cases hkp : call0.count_promise <;>
      simp [List.filter_cons, hrl, hkp]
  have hcnt1 : countQ1 (runLoads env c ud (call0 :: rest) s).1 c =
      (if (env.use_message_database && ud) = true
        then ((call0 :: rest).filter (fun cl => cl.return_local)).filterMap
          (fun cl => cl.count_promise)
        else (rest.filter (fun cl => cl.return_local)).filterMap
          (fun cl => cl.count_promise)) := by
    rw [hrun]
    dsimp only
    rw [runLoads_tail_countQ1 env c ud rest _ hne]
    by_cases hdb : (env.use_message_database && ud) = true
    · rw [load_first_countQ1_db env s c ud call0.return_local call0.chats_promise
        call0.count_promise hq hdb, hq1, if_pos hdb]
      cases hrl : call0.return_local <;> cases hkp : call0.count_promise <;>
        simp [List.filter_cons, hrl, hkp]
    · rw [load_first_countQ1_nodb env s c ud call0.return_local call0.chats_promise
        call0.count_promise hq hdb, if_neg hdb]
      simp
  have hevs : (runLoads env c ud (call0 :: rest) s).2 =
      (load_channel_recommendations env s c ud call0.return_local call0.chats_promise
        call0.count_promise).2 := by
    rw [hrun]
    dsimp only
    rw [ht.1]
    simp
  refine ⟨?_, h1.1, ?_, hlist, hcnt, hcnt1, ?_, ?_, ?_, ?_, ?_, ?_, ?_, ?_, ?_, ?_⟩
  · rw [hevs]
    exact h1.1
  · rw [hevs]
    exact h1.2.1
  · intro tc ds ev hev
    exact finish_shape _ c tc ds ev hev
  · intro tc ds p hp
    apply finish_mem_list
    rw [hlist]
    exact hp
  · intro tc ds cl p hcl hrl hkp
    apply finish_mem_count0
    rw [hcnt]
    exact List.mem_filterMap.mpr ⟨cl, List.mem_filter.mpr ⟨hcl, by simp [hrl]⟩, hkp⟩
  · intro tc ds p hp
    exact finish_mem_count1 _ c tc ds p hp
  · intro tc ds cl p hdb hcl hrl hkp
    apply finish_mem_count1
    rw [hcnt1, if_pos hdb]
    exact List.mem_filterMap.mpr ⟨cl, List.mem_filter.mpr ⟨hcl, by simp [hrl]⟩, hkp⟩
  · intro e2 ev hev
    exact fail_shape _ c e2 ev hev
  · intro e2 p hp
    apply fail_mem_list
    rw [hlist]
    exact hp
  · intro e2 cl p hcl hrl hkp
    apply fail_mem_count0
    rw [hcnt]
    exact List.mem_filterMap.mpr ⟨cl, List.mem_filter.mpr ⟨hcl, by simp [hrl]⟩, hkp⟩
  · intro e2 p hp
    exact fail_mem_count1 _ c e2 p hp
  · intro e2 cl p hdb hcl hrl hkp
    apply fail_mem_count1
    rw [hcnt1, if_pos hdb]
    exact List.mem_filterMap.mpr ⟨cl, List.mem_filter.mpr ⟨hcl, by simp [hrl]⟩, hkp⟩

theorem c1_witness :
    countStarts (runLoads envA 5 true
      [⟨false, some 11, some 12⟩, ⟨true, none, some 13⟩] initialState).2 = 1 ∧
    listQ (runLoads envA 5 true
      [⟨false, some 11, some 12⟩, ⟨true, none, some 13⟩] initialState).1 5 =
      [some 11, none] ∧
    Event.countValue 12 3 ∈
      (finish_load_channel_recommendations_queries
        (runLoads envA 5 true [⟨false, some 11, some 12⟩, ⟨true, none, some 13⟩]
          initialState).1 5 3 []).2 ∧
    Event.countValue 13 3 ∈
      (finish_load_channel_recommendations_queries
        (runLoads envA 5 true [⟨false, some 11, some 12⟩, ⟨true, none, some 13⟩]
          initialState).1 5 3 []).2 ∧
    Event.chatsError 11 ⟨429, "Too Many Requests"⟩ ∈
      (fail_load_channel_recommendations_queries
        (runLoads envA 5 true [⟨false, some 11, some 12⟩, ⟨true, none, some 13⟩]
          initialState).1 5 ⟨429, "Too Many Requests"⟩).2 ∧
    Event.countError 13 ⟨429, "Too Many Requests"⟩ ∈
      (fail_load_channel_recommendations_queries
        (runLoads envA 5 true [⟨false, some 11, some 12⟩, ⟨true, none, some 13⟩]
          initialState).1 5 ⟨429, "Too Many Requests"⟩).2 := by
  obtain ⟨a1, a2, a3, a4, a5, a6, a7, a8, a9, a10, a11, a12, a13, a14, a15, a16⟩ :=
    c1_amended_single_flight envA initialState 5 true ⟨false, some 11, some 12⟩
      [⟨true, none, some 13⟩] rfl rfl rfl
  exact ⟨a1, a4,
    a9 3 [] ⟨false, some 11, some 12⟩ 12 (by decide) rfl rfl,
    a11 3 [] ⟨true, none, some 13⟩ 13 rfl (by decide) rfl rfl,
    a13 ⟨429, "Too Many Requests"⟩ 11 (by decide),
    a16 ⟨429, "Too Many Requests"⟩ ⟨true, none, some 13⟩ 13 rfl (by decide) rfl rfl⟩

/-- The environment of the C1 counterexample: like `envA` but without the
message database, so an episode start goes straight to the remote query. -/
def envC : Env := { envA with use_message_database := false }

/-- First call of the C1 counterexample trace: a `return_local` count-only
caller on a cold cache. -/
def c1g1 : ManagerState × List Event :=
  get_channel_recommendations envC initialState (DialogId.channel 5) true none (some 10)

/-- Second call, arriving while the first call's episode is in flight. -/
def c1g2 : ManagerState × List Event :=
  get_channel_recommendations envC c1g1.1 (DialogId.channel 5) false (some 11) (some 12)

/-- The successful completion of the single episode with result
`(3, [channel 1])`. -/
def c1fin : List Event :=
  (finish_load_channel_recommendations_queries c1g2.1 5 3 [DialogId.channel 1]).2

/-- C1 counterexample: two `get_channel_recommendations` calls arrive while
no episode is pending; only one remote query starts, but NOT all queued
waiters are resolved from that episode with the same result: the first
caller's `return_local` count waiter (promise 10) is resolved with the
sentinel `-1` the moment the reload starts, while the completion resolves
waiters 11 and 12 with the episode result `3` — waiter 10 never sees the
episode's result. -/
theorem c1_counterexample :
    c1g1.2 = [Event.countValue 10 (-1), Event.remoteFetch 5] ∧
    c1g2.2 = [] ∧
    c1fin = [Event.countValue 12 3, Event.chatsValue 11 3 [DialogId.channel 1]] := by
  decide

/-! ### C10: pending-episode trace semantics -/

/-- An asynchronous operation in flight for a channel: the database read
started by `load_channel_recommendations`, or the remote query started by
`reload_channel_recommendations`.  Its completion re-enters the actor as
`on_load_channel_recommendations_from_database` respectively
`on_get_channel_recommendations`. -/
inductive PendingOp where
  | dbLoad (c : ChannelId)
  | fetchOp (c : ChannelId)
deriving DecidableEq

def PendingOp.channel : PendingOp → ChannelId
  | .dbLoad c => c
  | .fetchOp c => c

/-- The pending operation an event spawns, if any. -/
def opsOfEvent (ev : Event) : Option PendingOp :=
  match ev with
  | .dbGet c => some (PendingOp.dbLoad c)
  | .remoteFetch c => some (PendingOp.fetchOp c)
  | _ => none

/-- All pending operations spawned by a handler's event list. -/
def opsOf (evs : List Event) : List PendingOp := evs.filterMap opsOfEvent

theorem opsOf_append (a b : List Event) : opsOf (a ++ b) = opsOf a ++ opsOf b :=
  List.filterMap_append a b opsOfEvent

theorem opsOf_eq_nil_of (evs : List Event) (h : ∀ ev ∈ evs, opsOfEvent ev = none) :
    opsOf evs = [] :=
  List.filterMap_eq_nil_iff.mpr h

theorem opsOf_length_eq (evs : List Event) : (opsOf evs).length = countStarts evs := by
  induction evs with
  | nil => rfl
  | cons ev rest ih =>
      cases ev <;>
        simp [opsOf, opsOfEvent, countStarts, isStart, List.filterMap_cons,
          List.filter_cons] at ih ⊢ <;>
        exact ih

theorem opsOf_sentinel_events (L : List PromiseId) (c : ChannelId) :
    opsOf (L.map (fun p => Event.countValue p (-1)) ++ [Event.remoteFetch c]) =
      [PendingOp.fetchOp c] := by
  induction L with
  | nil => rfl
  | cons a t ih =>
      simp only [List.map_cons, List.cons_append, opsOf, List.filterMap_cons, opsOfEvent] at ih ⊢
      exact ih

/-- One transition of the per-channel serialized execution context: an
external `get_channel_recommendations` call with arbitrary arguments and
environment, or the completion of one pending operation with an arbitrary
database value / fetch result.  Each transition consumes or spawns pending
operations as recorded by the handler's events. -/
inductive Step : ManagerState → List PendingOp → ManagerState → List PendingOp → Prop where
  | callGet (env : Env) (s : ManagerState) (P : List PendingOp) (d : DialogId) (rl : Bool)
      (cp kp : Option PromiseId) :
      Step s P (get_channel_recommendations env s d rl cp kp).1
        (P ++ opsOf (get_channel_recommendations env s d rl cp kp).2)
  | completeDb (env : Env) (s : ManagerState) (P : List PendingOp) (c : ChannelId)
      (value : List SerTok) (h : PendingOp.dbLoad c ∈ P) :
      Step s P (on_load_channel_recommendations_from_database env s c value).1
        (P.erase (PendingOp.dbLoad c) ++
          opsOf (on_load_channel_recommendations_from_database env s c value).2)
  | completeFetch (env : Env) (s : ManagerState) (P : List PendingOp) (c : ChannelId)
      (res : Except Err (Int × List ChannelId)) (h : PendingOp.fetchOp c ∈ P) :
      Step s P (on_get_channel_recommendations env s c res).1
        (P.erase (PendingOp.fetchOp c) ++
          opsOf (on_get_channel_recommendations env s c res).2)

/-- States reachable from the freshly constructed manager. -/
inductive Reachable : ManagerState → List PendingOp → Prop where
  | init : Reachable initialState []
  | step {s P s2 P2} : Reachable s P → Step s P s2 P2 → Reachable s2 P2

/-! #### Handler effect lemmas for the invariant -/

theorem fail_listQ_ne (s : ManagerState) (c : ChannelId) (e : Err) (c' : ChannelId)
    (h : c' ≠ c) :
    listQ (fail_load_channel_recommendations_queries s c e).1 c' = listQ s c' := by
  simp [fail_load_channel_recommendations_queries, listQ, lookA_eraseA_ne h]

theorem finish_listQ_ne (s : ManagerState) (c : ChannelId) (tc : Int) (ds : List DialogId)
    (c' : ChannelId) (h : c' ≠ c) :
    listQ (finish_load_channel_recommendations_queries s c tc ds).1 c' = listQ s c' := by
  simp [finish_load_channel_recommendations_queries, listQ, lookA_eraseA_ne h]

theorem finish_listQ_self (s : ManagerState) (c : ChannelId) (tc : Int) (ds : List DialogId) :
    listQ (finish_load_channel_recommendations_queries s c tc ds).1 c = [] := by
  simp [finish_load_channel_recommendations_queries, listQ, lookA_eraseA_self]

theorem fail_opsOf (s : ManagerState) (c : ChannelId) (e : Err) :
    opsOf (fail_load_channel_recommendations_queries s c e).2 = [] := by
  apply opsOf_eq_nil_of
  intro ev hev
  rcases fail_shape s c e ev hev with ⟨p, rfl⟩ | ⟨p, rfl⟩ <;> rfl

theorem finish_opsOf (s : ManagerState) (c : ChannelId) (tc : Int) (ds : List DialogId) :
    opsOf (finish_load_channel_recommendations_queries s c tc ds).2 = [] := by
  apply opsOf_eq_nil_of
  intro ev hev
  rcases finish_shape s c tc ds ev hev with ⟨p, rfl⟩ | ⟨p, rfl⟩ <;> rfl

theorem reload_list_queries (s : ManagerState) (c : ChannelId) :
    (reload_channel_recommendations s c).1.list_queries = s.list_queries := rfl

theorem reload_opsOf (s : ManagerState) (c : ChannelId) :
    opsOf (reload_channel_recommendations s c).2 = [PendingOp.fetchOp c] :=
  opsOf_sentinel_events _ c

/-- In every branch, `load_channel_recommendations` replaces the list
queue of its channel by the old queue with the chats promise appended, and
leaves every other channel's list queue alone. -/
theorem load_list_queries (env : Env) (s : ManagerState) (c : ChannelId) (ud rl : Bool)
    (cp kp : Option PromiseId) :
    (load_channel_recommendations env s c ud rl cp kp).1.list_queries =
      setA c (listQ s c ++ [cp]) s.list_queries := by
  obtain ⟨m, lq, q0, q1⟩ := s
  cases kp with
  | none =>
      simp only [load_channel_recommendations, listQ]
      split
      · split
        · rfl
        · rfl
      · rfl
  | some k =>
      cases rl with
      | false =>
          simp only [load_channel_recommendations, pushCount, Bool.false_eq_true, if_false,
            listQ]
          split
          · split
            · rfl
            · rfl
          · rfl
      | true =>
          simp only [load_channel_recommendations, pushCount, if_true, listQ]
          split
          · split
            · rfl
            · rfl
          · rfl

theorem load_listQ_self2 (env : Env) (s : ManagerState) (c : ChannelId) (ud rl : Bool)
    (cp kp : Option PromiseId) :
    listQ (load_channel_recommendations env s c ud rl cp kp).1 c = listQ s c ++ [cp] := by
  simp [listQ, load_list_queries, lookA_setA_self]

theorem load_listQ_ne (env : Env) (s : ManagerState) (c : ChannelId) (ud rl : Bool)
    (cp kp : Option PromiseId) (c' : ChannelId) (h : c' ≠ c) :
    listQ (load_channel_recommendations env s c ud rl cp kp).1 c' = listQ s c' := by
  simp [listQ, load_list_queries, lookA_setA_ne h]

theorem load_first_ops (env : Env) (s : ManagerState) (c : ChannelId) (ud rl : Bool)
    (cp kp : Option PromiseId) (hq : listQ s c = []) :
    ∀ op ∈ opsOf (load_channel_recommendations env s c ud rl cp kp).2,
      op = PendingOp.dbLoad c ∨ op = PendingOp.fetchOp c := by
  intro op hop
  obtain ⟨ev, hev, hmap⟩ := List.mem_filterMap.mp hop
  rcases (load_first_start env s c ud rl cp kp hq).2.1 ev hev with rfl | rfl | ⟨p, rfl⟩
  · left
    simpa [opsOfEvent] using hmap.symm
  · right
    simpa [opsOfEvent] using hmap.symm
  · simp [opsOfEvent] at hmap

/-- Combined effect of one `load_channel_recommendations` call on list
queues and pending operations: list queues never shrink, an operation is
spawned only when the channel's queue was empty and leaves it non-empty,
and at most one operation is spawned. -/
theorem load_ops_spec (env : Env) (s : ManagerState) (c : ChannelId) (ud rl : Bool)
    (cp kp : Option PromiseId) :
    (∀ c', listQ s c' ≠ [] →
      listQ (load_channel_recommendations env s c ud rl cp kp).1 c' ≠ []) ∧
    (∀ op ∈ opsOf (load_channel_recommendations env s c ud rl cp kp).2,
      listQ s op.channel = [] ∧
      listQ (load_channel_recommendations env s c ud rl cp kp).1 op.channel ≠ []) ∧
    (opsOf (load_channel_recommendations env s c ud rl cp kp).2).length ≤ 1 := by
  have hmono : ∀ c', listQ s c' ≠ [] →
      listQ (load_channel_recommendations env s c ud rl cp kp).1 c' ≠ [] := by
    intro c' hc'
    by_cases h : c' = c
    · subst h
      rw [load_listQ_self2]
      simp
    · rw [load_listQ_ne env s c ud rl cp kp c' h]
      exact hc'
  by_cases hq : listQ s c = []
  · refine ⟨hmono, ?_, ?_⟩
    · intro op hop
      have hch : op.channel = c := by
        rcases load_first_ops env s c ud rl cp kp hq op hop with rfl | rfl <;> rfl
      rw [hch]
      refine ⟨hq, ?_⟩
      rw [load_listQ_self2]
      simp
    · rw [opsOf_length_eq, (load_first_start env s c ud rl cp kp hq).1]
  · have hl := load_append env s c ud rl cp kp hq
    refine ⟨hmono, ?_, ?_⟩
    · intro op hop
      rw [hl.1] at hop
      simp [opsOf] at hop
    · simp [hl.1, opsOf]

theorem opsOf_optEv2 (cp kp : Option PromiseId) (f g : PromiseId → Event)
    (hf : ∀ q, opsOfEvent (f q) = none) (hg : ∀ q, opsOfEvent (g q) = none) :
    opsOf (optEv cp f ++ optEv kp g) = [] := by
  cases cp <;> cases kp <;> simp [optEv, opsOf, List.filterMap_cons, hf, hg]

/-- Combined effect of one `get_channel_recommendations` call: list queues
never shrink, an operation is spawned only for a channel whose queue was
empty and is left non-empty, and at most one operation is spawned. -/
theorem get_ops_spec (env : Env) (s : ManagerState) (d : DialogId) (rl : Bool)
    (cp kp : Option PromiseId) :
    (∀ c', listQ s c' ≠ [] →
      listQ (get_channel_recommendations env s d rl cp kp).1 c' ≠ []) ∧
    (∀ op ∈ opsOf (get_channel_recommendations env s d rl cp kp).2,
      listQ s op.channel = [] ∧
      listQ (get_channel_recommendations env s d rl cp kp).1 op.channel ≠ []) ∧
    (opsOf (get_channel_recommendations env s d rl cp kp).2).length ≤ 1 := by
  obtain ⟨m, lq, q0, q1⟩ := s
  cases hdd : env.have_dialog d with
  | false =>
      have hred : get_channel_recommendations env ⟨m, lq, q0, q1⟩ d rl cp kp =
          (⟨m, lq, q0, q1⟩,
            optEv cp (fun p => Event.chatsError p ⟨400, "Chat not found"⟩) ++
              optEv kp (fun p => Event.countError p ⟨400, "Chat not found"⟩)) := by
        simp [get_channel_recommendations, hdd]
      rw [hred]
      refine ⟨fun c' hc' => hc', ?_, ?_⟩ <;>
        cases cp <;> cases kp <;> simp [optEv, opsOf, opsOfEvent, List.filterMap_cons]
  | true =>
      cases d with
      | user i =>
          have hred : get_channel_recommendations env ⟨m, lq, q0, q1⟩ (DialogId.user i)
              rl cp kp =
              (⟨m, lq, q0, q1⟩, optEv cp (fun p => Event.chatsValue p 0 []) ++
                optEv kp (fun p => Event.countValue p 0)) := by
            simp [get_channel_recommendations, hdd, DialogId.isChannel]
          rw [hred]
          refine ⟨fun c' hc' => hc', ?_, ?_⟩ <;>
            cases cp <;> cases kp <;> simp [optEv, opsOf, opsOfEvent, List.filterMap_cons]
      | chat i =>
          have hred : get_channel_recommendations env ⟨m, lq, q0, q1⟩ (DialogId.chat i)
              rl cp kp =
              (⟨m, lq, q0, q1⟩, optEv cp (fun p => Event.chatsValue p 0 []) ++
                optEv kp (fun p => Event.countValue p 0)) := by
            simp [get_channel_recommendations, hdd, DialogId.isChannel]
          rw [hred]
          refine ⟨fun c' hc' => hc', ?_, ?_⟩ <;>
            cases cp <;> cases kp <;> simp [optEv, opsOf, opsOfEvent, List.filterMap_cons]
      | secretChat i =>
          have hred : get_channel_recommendations env ⟨m, lq, q0, q1⟩
              (DialogId.secretChat i) rl cp kp =
              (⟨m, lq, q0, q1⟩, optEv cp (fun p => Event.chatsValue p 0 []) ++
                optEv kp (fun p => Event.countValue p 0)) := by
            simp [get_channel_recommendations, hdd, DialogId.isChannel]
          rw [hred]
          refine ⟨fun c' hc' => hc', ?_, ?_⟩ <;>
            cases cp <;> cases kp <;> simp [optEv, opsOf, opsOfEvent, List.filterMap_cons]
      | channel c =>
          by_cases hg : (!env.is_broadcast_channel c || !env.have_input_channel c) = true
          · have hred : get_channel_recommendations env ⟨m, lq, q0, q1⟩
                (DialogId.channel c) rl cp kp =
                (⟨m, lq, q0, q1⟩, optEv cp (fun p => Event.chatsValue p 0 []) ++
                  optEv kp (fun p => Event.countValue p 0)) := by
              simp only [get_channel_recommendations, hdd, DialogId.isChannel,
                DialogId.channelId, Bool.not_true, Bool.false_eq_true, if_false, hg, if_true]
            rw [hred]
            refine ⟨fun c' hc' => hc', ?_, ?_⟩ <;>
              cases cp <;> cases kp <;> simp [optEv, opsOf, opsOfEvent, List.filterMap_cons]
          · cases hm : lookA c m with
            | none =>
                have hred : get_channel_recommendations env ⟨m, lq, q0, q1⟩
                    (DialogId.channel c) rl cp kp =
                    load_channel_recommendations env ⟨m, lq, q0, q1⟩ c true rl cp kp := by
                  simp [get_channel_recommendations, hdd, DialogId.isChannel,
                    DialogId.channelId, hg, hm]
                rw [hred]
                exact load_ops_spec env ⟨m, lq, q0, q1⟩ c true rl cp kp
            | some r =>
                cases hsuit : are_suitable_recommended_dialogs env r with
                | true =>
                    by_cases hfresh : env.now < r.next_reload_time
                    · have hred : get_channel_recommendations env ⟨m, lq, q0, q1⟩
                          (DialogId.channel c) rl cp kp =
                          (⟨m, lq, q0, q1⟩,
                            optEv cp (fun p => Event.chatsValue p r.total_count r.dialog_ids) ++
                              optEv kp (fun p => Event.countValue p r.total_count)) := by
                        simp [get_channel_recommendations, hdd, DialogId.isChannel,
                          DialogId.channelId, hg, hm, hsuit, hfresh]
                      rw [hred]
                      refine ⟨fun c' hc' => hc', ?_, ?_⟩ <;>
                        cases cp <;> cases kp <;> simp [optEv, opsOf, opsOfEvent, List.filterMap_cons]
                    · have hred : get_channel_recommendations env ⟨m, lq, q0, q1⟩
                          (DialogId.channel c) rl cp kp =
                          ((load_channel_recommendations env ⟨m, lq, q0, q1⟩ c false rl
                              none none).1,
                            (optEv cp (fun p => Event.chatsValue p r.total_count r.dialog_ids) ++
                                optEv kp (fun p => Event.countValue p r.total_count)) ++
                              (load_channel_recommendations env ⟨m, lq, q0, q1⟩ c false rl
                                none none).2) := by
                        simp [get_channel_recommendations, hdd, DialogId.isChannel,
                          DialogId.channelId, hg, hm, hsuit, hfresh]
                      have hops : opsOf ((optEv cp
                            (fun p => Event.chatsValue p r.total_count r.dialog_ids) ++
                              optEv kp (fun p => Event.countValue p r.total_count)) ++
                            (load_channel_recommendations env ⟨m, lq, q0, q1⟩ c false rl
                              none none).2) =
                          opsOf (load_channel_recommendations env ⟨m, lq, q0, q1⟩ c false rl
                            none none).2 := by
                        rw [opsOf_append]
                        cases cp <;> cases kp <;>
                          simp [optEv, opsOf, opsOfEvent, List.filterMap_cons]
                      have hsl := load_ops_spec env ⟨m, lq, q0, q1⟩ c false rl none none
                      rw [hred]
                      refine ⟨hsl.1, ?_, ?_⟩
                      · intro op hop
                        rw [hops] at hop
                        exact hsl.2.1 op hop
                      · rw [hops]
                        exact hsl.2.2
                | false =>
                    have hred : get_channel_recommendations env ⟨m, lq, q0, q1⟩
                        (DialogId.channel c) rl cp kp =
                        ((load_channel_recommendations env ⟨eraseA c m, lq, q0, q1⟩ c false rl
                            cp kp).1,
                          (if env.use_message_database then [Event.dbErase c] else []) ++
                            (load_channel_recommendations env ⟨eraseA c m, lq, q0, q1⟩ c false
                              rl cp kp).2) := by
                      simp [get_channel_recommendations, hdd, DialogId.isChannel,
                        DialogId.channelId, hg, hm, hsuit]
                    have hops : opsOf ((if env.use_message_database then [Event.dbErase c]
                          else []) ++
                          (load_channel_recommendations env ⟨eraseA c m, lq, q0, q1⟩ c false
                            rl cp kp).2) =
                        opsOf (load_channel_recommendations env ⟨eraseA c m, lq, q0, q1⟩ c
                          false rl cp kp).2 := by
                      rcases Bool.eq_false_or_eq_true env.use_message_database with hu | hu <;>
                        simp [hu, opsOf_append, opsOf, opsOfEvent, List.filterMap_cons]
                    have hsl := load_ops_spec env ⟨eraseA c m, lq, q0, q1⟩ c false rl cp kp
                    rw [hred]
                    refine ⟨hsl.1, ?_, ?_⟩
                    · intro op hop
                      rw [hops] at hop
                      exact hsl.2.1 op hop
                    · rw [hops]
                      exact hsl.2.2

/-- Combined effect of a database-load completion, assuming (as the
invariant guarantees) that the list queue of its channel is non-empty:
other channels' queues are untouched, every spawned operation is for this
channel and leaves its queue non-empty, and at most one is spawned. -/
theorem on_load_ops_spec (env : Env) (s : ManagerState) (c : ChannelId)
    (value : List SerTok) (hq : listQ s c ≠ []) :
    (∀ c', c' ≠ c →
      listQ (on_load_channel_recommendations_from_database env s c value).1 c' =
        listQ s c') ∧
    (∀ op ∈ opsOf (on_load_channel_recommendations_from_database env s c value).2,
      op.channel = c ∧
      listQ (on_load_channel_recommendations_from_database env s c value).1 c ≠ []) ∧
    (opsOf (on_load_channel_recommendations_from_database env s c value).2).length ≤ 1 := by
  obtain ⟨m, lq, q0, q1⟩ := s
  by_cases hcf : env.close_flag = true
  · have hred : on_load_channel_recommendations_from_database env ⟨m, lq, q0, q1⟩ c value =
        fail_load_channel_recommendations_queries ⟨m, lq, q0, q1⟩ c env.close_status := by
      simp [on_load_channel_recommendations_from_database, hcf]
    rw [hred]
    refine ⟨fun c' hc' => fail_listQ_ne _ c _ c' hc', ?_, ?_⟩
    · intro op hop
      rw [fail_opsOf] at hop
      exact absurd hop (List.not_mem_nil _)
    · rw [fail_opsOf]
      simp
  · by_cases hemp : value.isEmpty = true
    · have hred : on_load_channel_recommendations_from_database env ⟨m, lq, q0, q1⟩ c value =
          reload_channel_recommendations ⟨m, lq, q0, q1⟩ c := by
        simp [on_load_channel_recommendations_from_database, hcf, hemp]
      rw [hred]
      refine ⟨fun c' hc' => rfl, ?_, ?_⟩
      · intro op hop
        rw [reload_opsOf] at hop
        rcases List.mem_cons.mp hop with rfl | h2
        · exact ⟨rfl, hq⟩
        · exact absurd h2 (List.not_mem_nil _)
      · rw [reload_opsOf]
        simp
    · cases hp : RecommendedDialogs.parse value with
      | none =>
          have hred : on_load_channel_recommendations_from_database env ⟨m, lq, q0, q1⟩ c
              value =
              ((reload_channel_recommendations ⟨eraseA c m, lq, q0, q1⟩ c).1,
                Event.dbErase c :: (reload_channel_recommendations ⟨eraseA c m, lq, q0, q1⟩
                  c).2) := by
            simp [on_load_channel_recommendations_from_database, hcf, hemp, hp]
          rw [hred]
          have hops : opsOf (Event.dbErase c ::
              (reload_channel_recommendations (⟨eraseA c m, lq, q0, q1⟩ : ManagerState) c).2) =
              [PendingOp.fetchOp c] := by
            simp only [opsOf, List.filterMap_cons, opsOfEvent]
            exact reload_opsOf _ c
          refine ⟨fun c' hc' => rfl, ?_, ?_⟩
          · intro op hop
            rw [hops] at hop
            rcases List.mem_cons.mp hop with rfl | h2
            · exact ⟨rfl, hq⟩
            · exact absurd h2 (List.not_mem_nil _)
          · rw [hops]
            simp
      | some r =>
          by_cases hbad : (!env.resolve_force_ok r.dialog_ids ||
              !are_suitable_recommended_dialogs env r) = true
          · have hred : on_load_channel_recommendations_from_database env ⟨m, lq, q0, q1⟩ c
                value =
                ((reload_channel_recommendations ⟨eraseA c m, lq, q0, q1⟩ c).1,
                  Event.dbErase c :: (reload_channel_recommendations ⟨eraseA c m, lq, q0, q1⟩
                    c).2) := by
              simp [on_load_channel_recommendations_from_database, hcf, hemp, hp, hbad]
            rw [hred]
            have hops : opsOf (Event.dbErase c ::
                (reload_channel_recommendations (⟨eraseA c m, lq, q0, q1⟩ : ManagerState)
                  c).2) = [PendingOp.fetchOp c] := by
              simp only [opsOf, List.filterMap_cons, opsOfEvent]
              exact reload_opsOf _ c
            refine ⟨fun c' hc' => rfl, ?_, ?_⟩
            · intro op hop
              rw [hops] at hop
              rcases List.mem_cons.mp hop with rfl | h2
              · exact ⟨rfl, hq⟩
              · exact absurd h2 (List.not_mem_nil _)
            · rw [hops]
              simp
          · by_cases hstale : r.next_reload_time ≤ env.now
            · have hred : on_load_channel_recommendations_from_database env ⟨m, lq, q0, q1⟩ c
                  value =
                  ((load_channel_recommendations env
                      (finish_load_channel_recommendations_queries ⟨setA c r m, lq, q0, q1⟩ c
                        r.total_count r.dialog_ids).1 c false false none none).1,
                    (finish_load_channel_recommendations_queries ⟨setA c r m, lq, q0, q1⟩ c
                      r.total_count r.dialog_ids).2 ++
                      (load_channel_recommendations env
                        (finish_load_channel_recommendations_queries ⟨setA c r m, lq, q0, q1⟩
                          c r.total_count r.dialog_ids).1 c false false none none).2) := by
                simp [on_load_channel_recommendations_from_database, hcf, hemp, hp, hbad,
                  hstale]
              rw [hred]
              have hqfin : listQ (finish_load_channel_recommendations_queries
                  (⟨setA c r m, lq, q0, q1⟩ : ManagerState) c r.total_count
                  r.dialog_ids).1 c = [] := finish_listQ_self _ c _ _
              have hops : opsOf ((finish_load_channel_recommendations_queries
                    (⟨setA c r m, lq, q0, q1⟩ : ManagerState) c r.total_count
                    r.dialog_ids).2 ++
                  (load_channel_recommendations env
                    (finish_load_channel_recommendations_queries
                      (⟨setA c r m, lq, q0, q1⟩ : ManagerState) c r.total_count
                      r.dialog_ids).1 c false false none none).2) =
                  opsOf (load_channel_recommendations env
                    (finish_load_channel_recommendations_queries
                      (⟨setA c r m, lq, q0, q1⟩ : ManagerState) c r.total_count
                      r.dialog_ids).1 c false false none none).2 := by
                rw [opsOf_append, finish_opsOf]
                rfl
              refine ⟨?_, ?_, ?_⟩
              · intro c' hc'
                rw [load_listQ_ne _ _ c _ _ _ _ c' hc',
                  finish_listQ_ne ⟨setA c r m, lq, q0, q1⟩ c r.total_count r.dialog_ids c' hc']
                rfl
              · intro op hop
                rw [hops] at hop
                have hch : op.channel = c := by
                  rcases load_first_ops env _ c false false none none hqfin op hop with
                    rfl | rfl <;> rfl
                refine ⟨hch, ?_⟩
                rw [load_listQ_self2, hqfin]
                simp
              · rw [hops, opsOf_length_eq,
                  (load_first_start env _ c false false none none hqfin).1]
            · have hred : on_load_channel_recommendations_from_database env ⟨m, lq, q0, q1⟩ c
                  value =
                  finish_load_channel_recommendations_queries ⟨setA c r m, lq, q0, q1⟩ c
                    r.total_count r.dialog_ids := by
                simp [on_load_channel_recommendations_from_database, hcf, hemp, hp, hbad,
                  hstale]
              rw [hred]
              refine ⟨fun c' hc' => finish_listQ_ne _ c _ _ c' hc', ?_, ?_⟩
              · intro op hop
                rw [finish_opsOf] at hop
                exact absurd hop (List.not_mem_nil _)
              · rw [finish_opsOf]
                simp

/-- Combined effect of a remote-fetch completion: other channels' queues
are untouched and no operation is ever spawned. -/
theorem on_get_ops_spec (env : Env) (s : ManagerState) (c : ChannelId)
    (res : Except Err (Int × List ChannelId)) :
    (∀ c', c' ≠ c →
      listQ (on_get_channel_recommendations env s c res).1 c' = listQ s c') ∧
    opsOf (on_get_channel_recommendations env s c res).2 = [] := by
  obtain ⟨m, lq, q0, q1⟩ := s
  cases res with
  | error e =>
      have hred : on_get_channel_recommendations env ⟨m, lq, q0, q1⟩ c (.error e) =
          fail_load_channel_recommendations_queries ⟨m, lq, q0, q1⟩ c e := by
        cases hcf : env.close_flag <;> simp [on_get_channel_recommendations, hcf]
      rw [hred]
      exact ⟨fun c' hc' => fail_listQ_ne _ c _ c' hc', fail_opsOf _ c _⟩
  | ok pr =>
      obtain ⟨tc0, cids⟩ := pr
      by_cases hcf : env.close_flag = true
      · have hred : on_get_channel_recommendations env ⟨m, lq, q0, q1⟩ c (.ok (tc0, cids)) =
            fail_load_channel_recommendations_queries ⟨m, lq, q0, q1⟩ c
              ⟨500, "Request aborted"⟩ := by
          simp [on_get_channel_recommendations, hcf]
        rw [hred]
        exact ⟨fun c' hc' => fail_listQ_ne _ c _ c' hc', fail_opsOf _ c _⟩
      · have hred : ∃ R : RecommendedDialogs,
            on_get_channel_recommendations env ⟨m, lq, q0, q1⟩ c (.ok (tc0, cids)) =
              ((finish_load_channel_recommendations_queries ⟨setA c R m, lq, q0, q1⟩ c
                  R.total_count R.dialog_ids).1,
                (if env.use_message_database then [Event.dbSet c R.store] else []) ++
                  (finish_load_channel_recommendations_queries ⟨setA c R m, lq, q0, q1⟩ c
                    R.total_count R.dialog_ids).2) := by
          refine ⟨⟨(reconcile_loop env cids
              (if tc0 < (cids.length : Int) then (cids.length : Int) else tc0) []).2,
            (reconcile_loop env cids
              (if tc0 < (cids.length : Int) then (cids.length : Int) else tc0) []).1,
            env.now + CHANNEL_RECOMMENDATIONS_CACHE_TIME⟩, ?_⟩
          simp [on_get_channel_recommendations, hcf]
        obtain ⟨R, hred⟩ := hred
        rw [hred]
        refine ⟨?_, ?_⟩
        · intro c' hc'
          rw [finish_listQ_ne ⟨setA c R m, lq, q0, q1⟩ c R.total_count R.dialog_ids c' hc']
          rfl
        · dsimp only
          cases hu : env.use_message_database
          · rw [if_neg (by simp), List.nil_append]
            exact finish_opsOf _ c _ _
          · rw [if_pos rfl, opsOf_append, finish_opsOf]
            rfl

theorem pairwise_of_length_le_one {α : Type} (R : α → α → Prop) (l : List α)
    (h : l.length ≤ 1) : l.Pairwise R := by
  cases l with
  | nil => exact List.Pairwise.nil
  | cons a t =>
      cases t with
      | nil => simp
      | cons b t2 => simp at h

/-- One transition preserves the pending-episode invariant. -/
theorem step_preserves_invariant (s : ManagerState) (P : List PendingOp)
    (s2 : ManagerState) (P2 : List PendingOp) (hstep : Step s P s2 P2)
    (ihp : P.Pairwise (fun a b => a.channel ≠ b.channel))
    (ihq : ∀ op ∈ P, listQ s op.channel ≠ []) :
    P2.Pairwise (fun a b => a.channel ≠ b.channel) ∧
      ∀ op ∈ P2, listQ s2 op.channel ≠ [] := by
  have hsym : Symmetric (fun a b : PendingOp => a.channel ≠ b.channel) :=
    fun x y hxy he => hxy he.symm
  cases hstep with
  | callGet env s1 P1 d rl cp kp =>
      have G := get_ops_spec env s d rl cp kp
      constructor
      · rw [List.pairwise_append]
        refine ⟨ihp, pairwise_of_length_le_one _ _ G.2.2, ?_⟩
        intro a ha b hb hab
        have hbq := (G.2.1 b hb).1
        have haq := ihq a ha
        rw [hab] at haq
        exact haq hbq
      · intro op hop
        rcases List.mem_append.mp hop with h1 | h2
        · exact G.1 op.channel (ihq op h1)
        · exact (G.2.1 op h2).2
  | completeDb env s1 P1 c value hmem =>
      have hqc : listQ s c ≠ [] := ihq _ hmem
      have L := on_load_ops_spec env s c value hqc
      have hnd : P.Nodup :=
        ihp.imp (fun hab he => hab (congrArg PendingOp.channel he))
      have hcross : ∀ a ∈ P.erase (PendingOp.dbLoad c), a.channel ≠ c := by
        intro a ha hac
        have haP : a ∈ P := List.mem_of_mem_erase ha
        by_cases hax : a = PendingOp.dbLoad c
        · subst hax
          exact hnd.not_mem_erase ha
        · exact (ihp.forall hsym haP hmem hax) hac
      constructor
      · rw [List.pairwise_append]
        refine ⟨ihp.sublist (List.erase_sublist _ _),
          pairwise_of_length_le_one _ _ L.2.2, ?_⟩
        intro a ha b hb he
        have hbc : b.channel = c := (L.2.1 b hb).1
        exact hcross a ha (by rw [he, hbc])
      · intro op hop
        rcases List.mem_append.mp hop with h1 | h2
        · have hne := hcross op h1
          rw [L.1 op.channel hne]
          exact ihq op (List.mem_of_mem_erase h1)
        · have hthis := L.2.1 op h2
          rw [hthis.1]
          exact hthis.2
  | completeFetch env s1 P1 c res hmem =>
      have L := on_get_ops_spec env s c res
      have hnd : P.Nodup :=
        ihp.imp (fun hab he => hab (congrArg PendingOp.channel he))
      have hcross : ∀ a ∈ P.erase (PendingOp.fetchOp c), a.channel ≠ c := by
        intro a ha hac
        have haP : a ∈ P := List.mem_of_mem_erase ha
        by_cases hax : a = PendingOp.fetchOp c
        · subst hax
          exact hnd.not_mem_erase ha
        · exact (ihp.forall hsym haP hmem hax) hac
      constructor
      · rw [L.2, List.append_nil]
        exact ihp.sublist (List.erase_sublist _ _)
      · intro op hop
        rw [L.2, List.append_nil] at hop
        have hne := hcross op hop
        rw [L.1 op.channel hne]
        exact ihq op (List.mem_of_mem_erase hop)

/-- The pending-episode invariant holds in every reachable configuration:
pending operations are for pairwise distinct channels and each one's
channel has a non-empty list-waiter queue. -/
theorem episode_invariant (s : ManagerState) (P : List PendingOp) (h : Reachable s P) :
    P.Pairwise (fun a b => a.channel ≠ b.channel) ∧
      ∀ op ∈ P, listQ s op.channel ≠ [] := by
  induction h with
  | init => exact ⟨List.Pairwise.nil, fun op hop => absurd hop (List.not_mem_nil _)⟩
  | step hreach hstep ih =>
      exact step_preserves_invariant _ _ _ _ hstep ih.1 ih.2

/-- C10: every episode start unconditionally pushes the (possibly null)
chats promise onto the per-channel list queue, so in every reachable
configuration every pending operation's channel has a present, non-empty
list-queue entry — exactly the CHECK conditions evaluated by
`fail_load_channel_recommendations_queries` and
`finish_load_channel_recommendations_queries` when the completion runs;
moreover a chats resolution (success or error) is only ever produced for
a non-null queued promise: null list promises are skipped. -/
theorem c10_check_assertions :
    (∀ s P, Reachable s P → ∀ op ∈ P,
      ∃ q, lookA op.channel s.list_queries = some q ∧ q ≠ []) ∧
    (∀ s c tc ds p t l, Event.chatsValue p t l ∈
        (finish_load_channel_recommendations_queries s c tc ds).2 → some p ∈ listQ s c) ∧
    (∀ s c e p e2, Event.chatsError p e2 ∈
        (fail_load_channel_recommendations_queries s c e).2 → some p ∈ listQ s c) := by
  refine ⟨?_, ?_, ?_⟩
  · intro s P hreach op hop
    have h := (episode_invariant s P hreach).2 op hop
    cases hl : lookA op.channel s.list_queries with
    | none =>
        exfalso
        apply h
        simp [listQ, hl]
    | some q =>
        refine ⟨q, rfl, ?_⟩
        intro hq
        apply h
        simp [listQ, hl, hq]
  · intro s c tc ds p t l hmem
    simp only [finish_load_channel_recommendations_queries, List.mem_append, List.mem_map,
      List.mem_filterMap] at hmem
    rcases hmem with (⟨x, _, hx⟩ | ⟨x, _, hx⟩) | ⟨op, hop, hx⟩
    · exact absurd hx (by simp)
    · exact absurd hx (by simp)
    · cases op with
      | none => exact absurd hx (by simp)
      | some p2 =>
          have hpp : p2 = p := by
            have := hx
            simp only [Option.map_some] at this
            exact (Event.chatsValue.injEq _ _ _ _ _ _).mp (Option.some.injEq _ _ ▸ this) |>.1
          subst hpp
          exact hop
  · intro s c e p e2 hmem
    simp only [fail_load_channel_recommendations_queries, List.mem_append, List.mem_map,
      List.mem_filterMap] at hmem
    rcases hmem with (⟨x, _, hx⟩ | ⟨x, _, hx⟩) | ⟨op, hop, hx⟩
    · exact absurd hx (by simp)
    · exact absurd hx (by simp)
    · cases op with
      | none => exact absurd hx (by simp)
      | some p2 =>
          have hpp : p2 = p := by
            have := hx
            simp only [Option.map_some] at this
            exact (Event.chatsError.injEq _ _ _ _).mp (Option.some.injEq _ _ ▸ this) |>.1
          subst hpp
          exact hop

theorem c10_witness :
    ∃ q, lookA 5 c1g1.1.list_queries = some q ∧ q ≠ [] := by
  have hr : Reachable c1g1.1 ([] ++ opsOf c1g1.2) :=
    Reachable.step Reachable.init
      (Step.callGet envC initialState [] (DialogId.channel 5) true none (some 10))
  exact c10_check_assertions.1 c1g1.1 ([] ++ opsOf c1g1.2) hr (PendingOp.fetchOp 5) (by decide)

end ChannelRec
